import Mathlib

/-!
Verification development for the configurator_site service
(draft lifecycle, template-driven config generation, safe preview
rendering, and the commit coordinator).

Strings are modelled as `List Char` (`Str`).  JavaScript's global literal
regex replace (`s.replace(/pat/g, rep)` for a literal pattern `pat`) is
modelled by `replaceAll`, which scans left to right, never rescans the
inserted replacement, and continues after each match — the semantics of a
global literal-pattern replace.
-/

set_option maxRecDepth 1000000

deriving instance DecidableEq for Except

namespace SiteBuilder

abbrev Str := List Char

/-- Boolean prefix test on character lists. -/
def startsWithL : Str → Str → Bool
  | [], _ => true
  | _ :: _, [] => false
  | p :: ps, c :: cs => p == c && startsWithL ps cs

/-- ECMAScript GetSubstitution for a string replacement, restricted to a
regular expression without capture groups and without named groups
(every regex the source passes to String.replace together with a string
replacement is of this form).  A dollar sign introduces one of the four
escapes: dollar-dollar (a literal dollar), dollar-ampersand (the matched
text), dollar-backquote (the part of the original string before the
match) and dollar-quote (the part after it).  A dollar followed by
anything else stands for itself: with zero capture groups a digit escape
is left as literal text, and without named groups so is a dollar-angle
escape. -/
def getSubstitution (matched before after : Str) : Str → Str
  | [] => []
  | c :: rest =>
    if c = '$' then
      match rest with
      | [] => ['$']
      | c2 :: t =>
        if c2 = '$' then '$' :: getSubstitution matched before after t
        else if c2 = '&' then matched ++ getSubstitution matched before after t
        else if c2 = Char.ofNat 96 then before ++ getSubstitution matched before after t
        else if c2 = '\'' then after ++ getSubstitution matched before after t
        else '$' :: getSubstitution matched before after (c2 :: t)
    else c :: getSubstitution matched before after rest

/-- Fuel-indexed worker for `replaceAll`; `pre` accumulates the part of
the original string already scanned, in reverse (the dollar-backquote
escape of GetSubstitution reads it).  The fuel only bounds the recursion
depth (it starts at the string length and never runs out, because each
step consumes at least one character). -/
def replaceAllFuel (pat rep : Str) : Nat → Str → Str → Str
  | _, _, [] => []
  | 0, _, c :: rest => c :: rest
  | fuel + 1, pre, c :: rest =>
    if pat ≠ [] ∧ startsWithL pat (c :: rest) = true then
      getSubstitution pat pre.reverse ((c :: rest).drop pat.length) rep
        ++ replaceAllFuel pat rep fuel (pat.reverse ++ pre) ((c :: rest).drop pat.length)
    else
      c :: replaceAllFuel pat rep fuel (c :: pre) rest

/-- JS `String.prototype.replace(/pat/g, rep)` for a literal pattern
without capture groups: leftmost-match scan, every occurrence replaced
by the GetSubstitution expansion of `rep` (dollar escapes interpreted),
the replacement is not rescanned, empty pattern never matches (the
source never uses one). -/
def replaceAll (pat rep s : Str) : Str := replaceAllFuel pat rep s.length [] s

/-- The JS whitespace class used by `trim` and `\s` (the code points the
service can actually receive; the full ECMA class adds more exotic
Unicode space separators that never occur in this repository's data). -/
def jsWs (c : Char) : Bool :=
  c == ' ' || c == '\t' || c == '\n' || c == '\x0d' ||
  c == '\x0b' || c == '\x0c' || c == ' '

/-- JS `String.prototype.trim`. -/
def jsTrim (s : Str) : Str :=
  ((s.dropWhile (jsWs ·)).reverse.dropWhile (jsWs ·)).reverse

/-- JS control-character class `[\x00-\x1F\x7F]`. -/
def isCtl (c : Char) : Bool :=
  c.toNat < 32 || c.toNat == 127

/-- Worker for `collapseWs`: the flag records whether the previous
character was whitespace (i.e. we are inside a run already emitted). -/
def collapseWsAux (inRun : Bool) : Str → Str
  | [] => []
  | c :: rest =>
    if jsWs c then
      if inRun then collapseWsAux true rest else ' ' :: collapseWsAux true rest
    else c :: collapseWsAux false rest

/-- JS `s.replace(/\s+/g, ' ')`: every maximal whitespace run becomes a
single space. -/
def collapseWs (s : Str) : Str := collapseWsAux false s

/-- JSON-like values: the dynamic `Record<string, any>` trees that section
`props` and config JSON are made of (object fields keep insertion order,
as JavaScript objects do). -/
inductive JValue where
  | jnull : JValue
  | jbool : Bool → JValue
  | jnum : Int → JValue
  | jstr : Str → JValue
  | jarr : List JValue → JValue
  | jobj : List (Str × JValue) → JValue

/-- Function escapeHtml from lib/html-escape.ts: the source applies five global
replaces in order `& < > " '`; the innermost call below runs first. -/
def escapeHtml (s : Str) : Str :=
  replaceAll ['\''] ("&#039;".data)
    (replaceAll ['"'] ("&quot;".data)
      (replaceAll ['>'] ("&gt;".data)
        (replaceAll ['<'] ("&lt;".data)
          (replaceAll ['&'] ("&amp;".data) s))))

mutual

/-- Function escapeHtmlInObject from lib/html-escape.ts: escape every string
value, recursing through arrays and objects; other values unchanged. -/
def escapeHtmlInObject : JValue → JValue
  | .jstr s => .jstr (escapeHtml s)
  | .jarr xs => .jarr (escapeHtmlList xs)
  | .jobj fs => .jobj (escapeHtmlFields fs)
  | v => v

def escapeHtmlList : List JValue → List JValue
  | [] => []
  | x :: xs => escapeHtmlInObject x :: escapeHtmlList xs

def escapeHtmlFields : List (Str × JValue) → List (Str × JValue)
  | [] => []
  | (k, v) :: fs => (k, escapeHtmlInObject v) :: escapeHtmlFields fs

end

/-- Decimal digits of an integer, as `JSON.stringify` prints numbers. -/
def intToStr (n : Int) : Str :=
  if n < 0 then '-' :: Nat.toDigits 10 n.natAbs else Nat.toDigits 10 n.natAbs

/-- JSON string-content escaping used by `JSON.stringify` (quote,
backslash, the short control escapes, `\u00XX` for other controls). -/
def escapeJsonChar (c : Char) : Str :=
  if c = '"' then ['\\', '"']
  else if c = '\\' then ['\\', '\\']
  else if c = '\n' then ['\\', 'n']
  else if c = '\t' then ['\\', 't']
  else if c = '\x0d' then ['\\', 'r']
  else if c = '\x08' then ['\\', 'b']
  else if c = '\x0c' then ['\\', 'f']
  else if c.toNat < 32 then
    ['\\', 'u', '0', '0', (Nat.digitChar (c.toNat / 16)), (Nat.digitChar (c.toNat % 16))]
  else [c]

def escapeJsonStr (s : Str) : Str := s.flatMap escapeJsonChar

mutual

/-- Model of JSON.stringify (no pretty-printing), over the `JValue` model; object
keys are serialized in insertion order, as JavaScript does. -/
def jsonStringify : JValue → Str
  | .jnull => "null".data
  | .jbool true => "true".data
  | .jbool false => "false".data
  | .jnum n => intToStr n
  | .jstr s => '"' :: (escapeJsonStr s ++ ['"'])
  | .jarr xs => '[' :: (jsonStringifyList xs ++ [']'])
  | .jobj fs => '{' :: (jsonStringifyFields fs ++ ['}'])

def jsonStringifyList : List JValue → Str
  | [] => []
  | [x] => jsonStringify x
  | x :: y :: xs => jsonStringify x ++ ',' :: jsonStringifyList (y :: xs)

def jsonStringifyFields : List (Str × JValue) → Str
  | [] => []
  | [(k, v)] => '"' :: (escapeJsonStr k ++ '"' :: ':' :: jsonStringify v)
  | (k, v) :: f :: fs =>
    '"' :: (escapeJsonStr k ++ '"' :: ':' :: jsonStringify v) ++ ',' :: jsonStringifyFields (f :: fs)

end

def toLowerAscii (c : Char) : Char :=
  if 'A' ≤ c ∧ c ≤ 'Z' then Char.ofNat (c.toNat + 32) else c

/-- Membership of a pattern as a contiguous substring. -/
def hasInfixL (pat : Str) : Str → Bool
  | [] => pat == []
  | c :: rest => startsWithL pat (c :: rest) || hasInfixL pat rest

/-- JS `\w` word-character class. -/
def isWordChar (c : Char) : Bool :=
  ('a' ≤ c && c ≤ 'z') || ('A' ≤ c && c ≤ 'Z') || ('0' ≤ c && c ≤ '9') || c == '_'

/-- After the greedy `\w+`, skip `\s*` and require a literal `=`. -/
def eatWsEq : Str → Bool
  | [] => false
  | c :: rest => if c = '=' then true else if jsWs c then eatWsEq rest else false

def eatWordThenEq : Str → Bool
  | [] => false
  | c :: rest => if isWordChar c then eatWordThenEq rest else eatWsEq (c :: rest)

/-- Does `on\w+\s*=` match starting exactly here (input already
lower-cased)?  Greedy matching is complete for this pattern because a
shorter `\w+` leaves a word character where `\s*=` must start. -/
def onAt : Str → Bool
  | 'o' :: 'n' :: c :: rest => isWordChar c && eatWordThenEq rest
  | _ => false

def hasOnHandler : Str → Bool
  | [] => false
  | c :: rest => onAt (c :: rest) || hasOnHandler rest

/-- Function containsUnsafeContent from lib/html-escape.ts: the six
case-insensitive patterns `<script`, `<iframe`, `<object`, `<embed`,
`javascript:` and `on\w+\s*=`. -/
def containsUnsafeContent (s : Str) : Bool :=
  let l := s.map toLowerAscii
  hasInfixL ("<script".data) l || hasInfixL ("<iframe".data) l ||
  hasInfixL ("<object".data) l || hasInfixL ("<embed".data) l ||
  hasInfixL ("javascript:".data) l || hasOnHandler l

inductive DomainErr where
  | emptyBrand : DomainErr
  | brandTooLong : DomainErr
  | emptyIndustryCode : DomainErr
deriving DecidableEq, Repr

namespace BrandName

/-- Method BrandName.create from domain/value-objects/BrandName.ts: the stored
value is the *trimmed* input; validation only checks `1 ≤ length ≤ 100`.
No control-character removal, whitespace collapsing or truncation
happens here. -/
def create (name : Str) : Except DomainErr Str :=
  let value := jsTrim name
  if value.length < 1 then .error .emptyBrand
  else if value.length > 100 then .error .brandTooLong
  else .ok value

end BrandName

structure IndustryInfo where
  code : Str
  label : Str
deriving DecidableEq, Repr

/-- Table INDUSTRY_MAP from domain/value-objects/IndustryInfo.ts. -/
def INDUSTRY_MAP : List (Str × Str) :=
  [("tech".data, "Технологии".data),
   ("finance".data, "Финансы".data),
   ("healthcare".data, "Здравоохранение".data),
   ("retail".data, "Розничная торговля".data),
   ("education".data, "Образование".data),
   ("real-estate".data, "Недвижимость".data),
   ("consulting".data, "Консалтинг".data),
   ("restaurant".data, "Ресторан".data),
   ("other".data, "Другое".data)]

def industryMapLookup (code : Str) : Option Str :=
  (INDUSTRY_MAP.find? (fun p => p.1 == code)).map (·.2)

namespace IndustryInfo

/-- Method IndustryInfo.create from domain/value-objects/IndustryInfo.ts:
`label || INDUSTRY_MAP[code] || code` (JS falsiness: an empty label
falls through), then the constructor only rejects an empty code.  The
code itself is stored verbatim — unknown codes are NOT remapped. -/
def create (code : Str) (label : Option Str) : Except DomainErr IndustryInfo :=
  let resolvedLabel :=
    match label with
    | some l => if l = [] then (industryMapLookup code).getD code else l
    | none => (industryMapLookup code).getD code
  if code = [] then .error .emptyIndustryCode
  else .ok ⟨code, resolvedLabel⟩

end IndustryInfo

/-- Method normalizeBrandName from SiteConfigGeneratorImpl.ts: trim, drop
`[\x00-\x1F\x7F]`, collapse `\s+` runs to single spaces, take the first
100 code points.  This runs at config-generation time, not when the
draft is stored. -/
def normalizeBrandName (s : Str) : Str :=
  (collapseWs ((jsTrim s).filter (fun c => !isCtl c))).take 100

/-- The `z.enum` industry-code membership check from
application/dtos/DraftDTOs.ts (the HTTP-boundary validation). -/
def industrySchemaAllows (code : Str) : Bool :=
  code == "tech".data || code == "finance".data || code == "healthcare".data ||
  code == "retail".data || code == "education".data || code == "real-estate".data ||
  code == "consulting".data || code == "restaurant".data || code == "other".data

/-- Token context built in SiteConfigGeneratorImpl.generate (step 3). -/
structure TokenContext where
  brandName : Str
  industryLabel : Str
  logoUrl : Option Str
  slug : Str

/-- Function resolveTokens from templates/TemplateDefinition.ts: four
global replaces in order brandName, industryLabel, logoUrl (empty string
when absent), slug; the innermost call below runs first. -/
def resolveTokens (template : Str) (ctx : TokenContext) : Str :=
  replaceAll ("\x7b\x7bslug\x7d\x7d".data) ctx.slug
    (replaceAll ("\x7b\x7blogoUrl\x7d\x7d".data) (ctx.logoUrl.getD [])
      (replaceAll ("\x7b\x7bindustryLabel\x7d\x7d".data) ctx.industryLabel
        (replaceAll ("\x7b\x7bbrandName\x7d\x7d".data) ctx.brandName template)))

mutual

/-- Function resolveSectionProps from templates/TemplateDefinition.ts,
applied to an object of props. -/
def resolveSectionProps (ctx : TokenContext) : JValue → JValue
  | .jobj fs => .jobj (resolveFields ctx fs)
  | v => v

def resolveFields (ctx : TokenContext) : List (Str × JValue) → List (Str × JValue)
  | [] => []
  | (k, v) :: fs => (k, resolveFieldValue ctx v) :: resolveFields ctx fs

/-- One field value: strings are token-resolved; arrays map over their
items; nested non-null objects recurse; anything else (null, numbers,
booleans) is copied verbatim. -/
def resolveFieldValue (ctx : TokenContext) : JValue → JValue
  | .jstr s => .jstr (resolveTokens s ctx)
  | .jarr xs => .jarr (resolveItems ctx xs)
  | .jobj fs => .jobj (resolveFields ctx fs)
  | v => v

/-- Array items: the source tests `typeof item === 'object'` only, so an
object item recurses while a string item is returned UNCHANGED (tokens in
a string that is a direct array element are never resolved).  A null or
array item never occurs in the registered templates. -/
def resolveItems (ctx : TokenContext) : List JValue → List JValue
  | [] => []
  | x :: xs =>
    (match x with
     | .jobj fs => .jobj (resolveFields ctx fs)
     | other => other) :: resolveItems ctx xs

end

/-- Sections as both template sections and generated/rendered sections:
the `\x7b id, type, props \x7d` shape used throughout the source. -/
structure Section where
  id : Str
  type : Str
  props : JValue

structure PageTemplate where
  id : Str
  path : Str
  titleTemplate : Str
  sections : List Section

/-- Template definition (templates/TemplateDefinition.ts); the theme
palette/typography/radius/spacing defaults are omitted: no claim under
verification mentions them, and they contain no tokens. -/
structure Template where
  templateId : Str
  templateVersion : Nat
  seoTitleSuffix : Str
  seoDescriptionTemplate : Str
  pages : List PageTemplate

/-- Template it_services from definitions/ITServicesTemplate.ts. -/
def ITServicesTemplate : Template :=
  { templateId := "it_services".data
    templateVersion := 1
    seoTitleSuffix := "IT-услуги".data
    seoDescriptionTemplate := "Разработка сайтов и цифровых продуктов для бизнеса.".data
    pages := [
      { id := "home".data
        path := "/".data
        titleTemplate := "Главная".data
        sections := [
          { id := "hero_1".data
            type := "hero".data
            props := .jobj [
              ("headline".data, .jstr ("\x7b\x7bbrandName\x7d\x7d — IT-услуги для роста бизнеса".data)),
              ("subheadline".data, .jstr ("Сайты, дизайн и разработка под ключ. Быстрый старт, понятный процесс.".data)),
              ("primaryCta".data, .jobj [
                ("text".data, .jstr ("Получить консультацию".data)),
                ("href".data, .jstr ("#contact".data))]),
              ("secondaryCta".data, .jobj [
                ("text".data, .jstr ("Посмотреть кейсы".data)),
                ("href".data, .jstr ("#cases".data))]),
              ("logoAssetId".data, .jstr ("\x7b\x7blogoAssetId\x7d\x7d".data))] }
          , { id := "services_1".data
              type := "features".data
              props := .jobj [
                ("title".data, .jstr ("Что мы делаем".data)),
                ("items".data, .jarr [
                  .jobj [("title".data, .jstr ("Сайты".data)),
                         ("text".data, .jstr ("Лендинги, корпоративные, магазины.".data))],
                  .jobj [("title".data, .jstr ("Дизайн".data)),
                         ("text".data, .jstr ("Логотипы, обложки, UI/UX.".data))],
                  .jobj [("title".data, .jstr ("Поддержка".data)),
                         ("text".data, .jstr ("Сопровождение и доработки.".data))]])] }
          , { id := "about_1".data
              type := "about".data
              props := .jobj [
                ("title".data, .jstr ("О нас".data)),
                ("text".data, .jstr ("Мы — \x7b\x7bbrandName\x7d\x7d, команда профессионалов в сфере \x7b\x7bindustryLabel\x7d\x7d. Помогаем бизнесу расти через качественные цифровые решения.".data))] }
          , { id := "contact_1".data
              type := "contact".data
              props := .jobj [
                ("title".data, .jstr ("Связаться с нами".data)),
                ("subtitle".data, .jstr ("Оставьте заявку — мы ответим в течение дня.".data)),
                ("fields".data, .jarr [.jstr ("name".data), .jstr ("phone".data), .jstr ("message".data)])] }
        ] }
    ] }

/-- Template default from definitions/DefaultTemplate.ts. -/
def DefaultTemplate : Template :=
  { templateId := "default".data
    templateVersion := 1
    seoTitleSuffix := "Профессиональные услуги".data
    seoDescriptionTemplate := "Качественный сервис и профессионализм.".data
    pages := [
      { id := "home".data
        path := "/".data
        titleTemplate := "Главная".data
        sections := [
          { id := "hero_1".data
            type := "hero".data
            props := .jobj [
              ("headline".data, .jstr ("Добро пожаловать в \x7b\x7bbrandName\x7d\x7d".data)),
              ("subheadline".data, .jstr ("Профессиональные услуги, которым можно доверять.".data)),
              ("primaryCta".data, .jobj [
                ("text".data, .jstr ("Узнать больше".data)),
                ("href".data, .jstr ("#about".data))]),
              ("logoAssetId".data, .jstr ("\x7b\x7blogoAssetId\x7d\x7d".data))] }
          , { id := "services_1".data
              type := "features".data
              props := .jobj [
                ("title".data, .jstr ("Наши услуги".data)),
                ("items".data, .jarr [
                  .jobj [("title".data, .jstr ("Профессиональный сервис".data)),
                         ("text".data, .jstr ("Экспертные решения для ваших задач.".data))],
                  .jobj [("title".data, .jstr ("Клиентская поддержка".data)),
                         ("text".data, .jstr ("Профессиональная поддержка когда вам нужно.".data))],
                  .jobj [("title".data, .jstr ("Гарантия качества".data)),
                         ("text".data, .jstr ("Стремление к совершенству во всем.".data))]])] }
          , { id := "about_1".data
              type := "about".data
              props := .jobj [
                ("title".data, .jstr ("О компании \x7b\x7bbrandName\x7d\x7d".data)),
                ("text".data, .jstr ("Мы предоставляем качественный сервис с профессионализмом и опытом в сфере \x7b\x7bindustryLabel\x7d\x7d.".data))] }
          , { id := "contact_1".data
              type := "contact".data
              props := .jobj [
                ("title".data, .jstr ("Свяжитесь с нами".data)),
                ("subtitle".data, .jstr ("Мы будем рады ответить на ваши вопросы.".data)),
                ("fields".data, .jarr [.jstr ("name".data), .jstr ("email".data), .jstr ("message".data)])] }
        ] }
    ] }

structure TemplateMapping where
  industryCode : Str
  templateId : Str
  templateVersion : Nat

/-- Table TEMPLATE_MAPPINGS from config_generation (Template Registry). -/
def TEMPLATE_MAPPINGS : List TemplateMapping :=
  [⟨"tech".data, "it_services".data, 1⟩,
   ⟨"finance".data, "finance_professional".data, 1⟩,
   ⟨"healthcare".data, "healthcare_trust".data, 1⟩,
   ⟨"retail".data, "retail_vibrant".data, 1⟩,
   ⟨"education".data, "education_inspire".data, 1⟩,
   ⟨"real-estate".data, "realestate_premium".data, 1⟩,
   ⟨"consulting".data, "consulting_professional".data, 1⟩,
   ⟨"restaurant".data, "restaurant_delicious".data, 1⟩,
   ⟨"other".data, "default".data, 1⟩]

def DEFAULT_TEMPLATE_MAPPING : TemplateMapping := ⟨"other".data, "default".data, 1⟩

namespace TemplateRegistry

/-- Method TemplateRegistry.getByIndustry: first mapping whose industry
code matches, else the default mapping. -/
def getByIndustry (industryCode : Str) : TemplateMapping :=
  (TEMPLATE_MAPPINGS.find? (fun m => m.industryCode == industryCode)).getD DEFAULT_TEMPLATE_MAPPING

end TemplateRegistry

/-- Table TEMPLATES from templates/TemplateLoader.ts: only it_services
and default are registered. -/
def TEMPLATES : List (Str × Template) :=
  [("it_services".data, ITServicesTemplate), ("default".data, DefaultTemplate)]

namespace TemplateLoader

/-- Method TemplateLoader.load: registered template or the default. -/
def load (templateId : Str) : Template :=
  (((TEMPLATES.find? (fun p => p.1 == templateId))).map (·.2)).getD DefaultTemplate

end TemplateLoader

/-- Transliteration of Cyrillic to Latin (lower-case output), used by
slug derivation. -/
def translitChar (c : Char) : Str :=
  let l := if c.toNat ≥ 0x400 ∧ c.toNat ≤ 0x42F then Char.ofNat (c.toNat + 0x20) else c
  if l = 'а' then "a".data else if l = 'б' then "b".data
  else if l = 'в' then "v".data else if l = 'г' then "g".data
  else if l = 'д' then "d".data else if l = 'е' then "e".data
  else if l = 'ё' then "e".data else if l = 'ж' then "zh".data
  else if l = 'з' then "z".data else if l = 'и' then "i".data
  else if l = 'й' then "y".data else if l = 'к' then "k".data
  else if l = 'л' then "l".data else if l = 'м' then "m".data
  else if l = 'н' then "n".data else if l = 'о' then "o".data
  else if l = 'п' then "p".data else if l = 'р' then "r".data
  else if l = 'с' then "s".data else if l = 'т' then "t".data
  else if l = 'у' then "u".data else if l = 'ф' then "f".data
  else if l = 'х' then "kh".data else if l = 'ц' then "ts".data
  else if l = 'ч' then "ch".data else if l = 'ш' then "sh".data
  else if l = 'щ' then "shch".data else if l = 'ъ' then []
  else if l = 'ы' then "y".data else if l = 'ь' then []
  else if l = 'э' then "e".data else if l = 'ю' then "yu".data
  else if l = 'я' then "ya".data else [l]

def isSlugChar (c : Char) : Bool :=
  ('a' ≤ c && c ≤ 'z') || ('0' ≤ c && c ≤ '9')

/-- Worker for `slugRuns`, flagged like `collapseWsAux`. -/
def slugRunsAux (inRun : Bool) : Str → Str
  | [] => []
  | c :: rest =>
    if isSlugChar c then c :: slugRunsAux false rest
    else if inRun then slugRunsAux true rest
    else '-' :: slugRunsAux true rest

/-- Replace every maximal run of non-`[a-z0-9]` characters by one `-`. -/
def slugRuns (s : Str) : Str := slugRunsAux false s

/-- Modelled from the spec: the function generateSlug of lib/slug.ts is
referenced by SiteConfigGeneratorImpl but its file is not in the sources;
spec section 4.C.1 defines it as a total function: transliterate Cyrillic
to Latin by a fixed table, strip combining marks, lowercase, replace runs
of non-`[a-z0-9]` with `-`, trim leading/trailing hyphens, truncate at 50
code points, with empty result falling back to "site". -/
def generateSlug (s : Str) : Str :=
  let t := (s.flatMap translitChar).filter
    (fun c => !(0x300 ≤ c.toNat && c.toNat ≤ 0x36F))
  let lowered := t.map toLowerAscii
  let runs := slugRuns lowered
  let trimmed := ((runs.dropWhile (· == '-')).reverse.dropWhile (· == '-')).reverse
  let cut := trimmed.take 50
  if cut = [] then "site".data else cut

/-- The logo AssetInfo fields the generator and renderer read. -/
structure AssetInfoM where
  assetId : Str
  url : Str
deriving DecidableEq, Repr

def lookupField (fs : List (Str × JValue)) (k : Str) : Option JValue :=
  (fs.find? (fun p => p.1 == k)).map (·.2)

def setField (fs : List (Str × JValue)) (k : Str) (v : JValue) : List (Str × JValue) :=
  fs.map (fun p => if p.1 == k then (p.1, v) else p)

/-- The value assigned by `resolvedProps.logoAssetId = logo?.getAssetId() || null`. -/
def logoAssetIdValue (logo : Option AssetInfoM) : JValue :=
  match logo with
  | some l => if l.assetId = [] then .jnull else .jstr l.assetId
  | none => .jnull

/-- The special-case in SiteConfigGeneratorImpl.generate (step 5): after
resolveSectionProps, a top-level props field named logoAssetId whose value
is still the literal token is overwritten with the asset id or null. -/
def applyLogoAssetId (logo : Option AssetInfoM) (props : JValue) : JValue :=
  match props with
  | .jobj fs =>
    match lookupField fs ("logoAssetId".data) with
    | some (.jstr s) =>
      if s = ("\x7b\x7blogoAssetId\x7d\x7d".data) then
        .jobj (setField fs ("logoAssetId".data) (logoAssetIdValue logo))
      else .jobj fs
    | _ => .jobj fs
  | v => v

structure Page where
  id : Str
  path : Str
  title : Str
  sections : List Section

/-- Step 5 of SiteConfigGeneratorImpl.generate: pages and sections with
token resolution and the logoAssetId special case. -/
def generatePages (template : Template) (ctx : TokenContext) (logo : Option AssetInfoM) : List Page :=
  template.pages.map fun pt =>
    { id := pt.id
      path := pt.path
      title := resolveTokens pt.titleTemplate ctx
      sections := pt.sections.map fun st =>
        { id := st.id
          type := st.type
          props := applyLogoAssetId logo (resolveSectionProps ctx st.props) } }

/-- Steps 1-3 of SiteConfigGeneratorImpl.generate: the token context,
with the brand name normalized and the slug derived from it. -/
def generatorContext (storedBrandName : Str) (industry : IndustryInfo)
    (logo : Option AssetInfoM) : TokenContext :=
  let brandName := normalizeBrandName storedBrandName
  { brandName := brandName
    industryLabel := industry.label
    logoUrl := logo.map (·.url)
    slug := generateSlug brandName }

/-- Steps 1-5 of SiteConfigGeneratorImpl.generate for a draft: select the
template by industry code, then generate the pages. -/
def generatePagesForDraft (storedBrandName : Str) (industry : IndustryInfo)
    (logo : Option AssetInfoM) : List Page :=
  let mapping := TemplateRegistry.getByIndustry industry.code
  let template := TemplateLoader.load mapping.templateId
  generatePages template (generatorContext storedBrandName industry logo) logo

def sectionToJson (s : Section) : JValue :=
  .jobj [("id".data, .jstr s.id), ("type".data, .jstr s.type), ("props".data, s.props)]

def pageToJson (p : Page) : JValue :=
  .jobj [("id".data, .jstr p.id), ("path".data, .jstr p.path),
         ("title".data, .jstr p.title),
         ("sections".data, .jarr (p.sections.map sectionToJson))]

/-- The SiteConfig.toJSON object (domain/entities/SiteConfig.ts), modelled
with the fields the verified claims inspect; the constant-valued blocks
site/theme/assets/publishing and the remaining generator fields are
elided, which only shortens the hashed serialization.  Field order is the
source's insertion order; in particular `configId` and `generatedAt` ARE
part of the serialized object. -/
structure SiteConfigJson where
  schemaVersion : Nat
  configVersion : Str
  configId : Str
  draftId : Str
  generatedAt : Str
  templateId : Str
  templateVersion : Nat
  brandName : Str
  brandSlug : Str
  pages : List Page

def configToJson (c : SiteConfigJson) : JValue :=
  .jobj [("schemaVersion".data, .jnum c.schemaVersion),
         ("configVersion".data, .jstr c.configVersion),
         ("configId".data, .jstr c.configId),
         ("draftId".data, .jstr c.draftId),
         ("generatedAt".data, .jstr c.generatedAt),
         ("generator".data, .jobj [
            ("templateId".data, .jstr c.templateId),
            ("templateVersion".data, .jnum c.templateVersion)]),
         ("brand".data, .jobj [
            ("name".data, .jstr c.brandName),
            ("slug".data, .jstr c.brandSlug)]),
         ("pages".data, .jarr (c.pages.map pageToJson))]

/-- Method SiteConfigGeneratorImpl.generate assembled as a SiteConfigJson;
`configId` and `generatedAt` are the impure inputs (a fresh uuid-based id
and the current instant in the source), passed here as parameters. -/
def generateConfig (storedBrandName : Str) (industry : IndustryInfo)
    (logo : Option AssetInfoM) (draftId configId generatedAt : Str) : SiteConfigJson :=
  let mapping := TemplateRegistry.getByIndustry industry.code
  let template := TemplateLoader.load mapping.templateId
  let ctx := generatorContext storedBrandName industry logo
  { schemaVersion := 1
    configVersion := "1.0.0".data
    configId := configId
    draftId := draftId
    generatedAt := generatedAt
    templateId := template.templateId
    templateVersion := template.templateVersion
    brandName := ctx.brandName
    brandSlug := ctx.slug
    pages := generatePages template ctx logo }

/-- Function generateConfigETag from lib/etag.ts:
`W/"\x7bconfigId\x7d:\x7bhashContent(JSON.stringify(configJson))\x7d"`.
The hash (sha256 hex truncated to 16 characters in the source) is an
abstract parameter: every theorem below holds for an arbitrary hash
function, so nothing depends on sha256 internals. -/
def generateConfigETag (hashContent : Str → Str) (cfg : SiteConfigJson) : Str :=
  ("W/\"".data) ++ cfg.configId ++ ':' :: (hashContent (jsonStringify (configToJson cfg)) ++ ['"'])

/-- Table ALLOWED_SECTION_TYPES from preview/SafePreviewRenderer.ts. -/
def ALLOWED_SECTION_TYPES : List Str :=
  [("hero".data), ("features".data), ("about".data), ("contact".data),
   ("services".data), ("gallery".data), ("testimonials".data),
   ("pricing".data), ("faq".data), ("team".data), ("footer".data)]

/-- Method SafePreviewRenderer.isSectionAllowed. -/
def isSectionAllowed (s : Section) : Bool :=
  ALLOWED_SECTION_TYPES.contains s.type

inductive RenderErr where
  | unsafeContent : RenderErr
deriving DecidableEq, Repr

/-- Method SafePreviewRenderer.sanitizeSection: scan the JSON
serialization of the whole section for unsafe patterns (throwing on a
match), then escape every string in the props. -/
def sanitizeSection (s : Section) : Except RenderErr Section :=
  if containsUnsafeContent (jsonStringify (sectionToJson s)) then .error .unsafeContent
  else .ok { s with props := escapeHtmlInObject s.props }

/-- JavaScript truthiness of a JSON value. -/
def jsTruthy : JValue → Bool
  | .jnull => false
  | .jbool b => b
  | .jnum n => n != 0
  | .jstr s => s != []
  | _ => true

/-- Field access `props.k || dflt` restricted to string-valued fields (the
only shape the registered templates produce). -/
def getStrOr (v : JValue) (k : Str) (dflt : Str) : Str :=
  match v with
  | .jobj fs =>
    match lookupField fs k with
    | some (.jstr s) => if s = [] then dflt else s
    | _ => dflt
  | _ => dflt

/-- The brand fields the built-in document renderer reads. -/
structure BrandM where
  name : Str
  logoUrl : Option Str

/-- One call-to-action anchor:
`cta ? anchor-with-escaped-href-and-text : empty`. -/
def renderCta (cta : Option JValue) : Str :=
  match cta with
  | some v =>
    if jsTruthy v then
      ("<a href=\"".data) ++ escapeHtml (getStrOr v ("href".data) [])
        ++ ("\" class=\"cta-button\">".data)
        ++ escapeHtml (getStrOr v ("text".data) []) ++ ("</a>".data)
    else []
  | none => []

/-- Method SafePreviewRenderer.renderHeroSection, transcribed from the
source template literal. -/
def renderHeroSection (props : JValue) (brand : BrandM) : Str :=
  let headline := escapeHtml (getStrOr props ("headline".data) [])
  let subheadline := escapeHtml (getStrOr props ("subheadline".data) [])
  let primaryCta := match props with | .jobj fs => lookupField fs ("primaryCta".data) | _ => none
  let secondaryCta := match props with | .jobj fs => lookupField fs ("secondaryCta".data) | _ => none
  let logoUrl := match brand.logoUrl with
    | some u => if u ≠ [] then escapeHtml u else []
    | none => []
  let imgPart :=
    if logoUrl ≠ [] then
      ("<img src=\"".data) ++ logoUrl ++ ("\" alt=\"Logo\" style=\"height: 80px; margin-bottom: 2rem;\">".data)
    else []
  ("\n  <section class=\"hero\">\n    <div class=\"container\">\n      ".data)
    ++ imgPart
    ++ ("\n      <h1>".data) ++ headline ++ ("</h1>\n      <p>".data) ++ subheadline
    ++ ("</p>\n      <div>\n        ".data) ++ renderCta primaryCta
    ++ ("\n        ".data) ++ renderCta secondaryCta
    ++ ("\n      </div>\n    </div>\n  </section>".data)

/-- The `item.text || item.description || empty` fallback chain. -/
def itemTextOrDescription (item : JValue) : Str :=
  let t := getStrOr item ("text".data) []
  if t ≠ [] then t else getStrOr item ("description".data) []

def renderFeatureItem (item : JValue) : Str :=
  ("\n        <div class=\"feature-card\">\n          <h3>".data)
    ++ escapeHtml (getStrOr item ("title".data) [])
    ++ ("</h3>\n          <p>".data)
    ++ escapeHtml (itemTextOrDescription item)
    ++ ("</p>\n        </div>\n      ".data)

/-- Method SafePreviewRenderer.renderFeaturesSection. -/
def renderFeaturesSection (props : JValue) : Str :=
  let title := escapeHtml (getStrOr props ("title".data) [])
  let items := match props with
    | .jobj fs => match lookupField fs ("items".data) with
      | some (.jarr xs) => xs
      | _ => []
    | _ => []
  let itemsHtml := (items.map renderFeatureItem).flatten
  ("\n  <section class=\"section\">\n    <div class=\"container\">\n      <h2 class=\"section-title\">".data)
    ++ title
    ++ ("</h2>\n      <div class=\"features-grid\">\n        ".data)
    ++ itemsHtml
    ++ ("\n      </div>\n    </div>\n  </section>".data)

/-- Method SafePreviewRenderer.renderAboutSection. -/
def renderAboutSection (props : JValue) : Str :=
  let title := escapeHtml (getStrOr props ("title".data) [])
  let text := escapeHtml
    (let t := getStrOr props ("text".data) []
     if t ≠ [] then t else getStrOr props ("body".data) [])
  ("\n  <section class=\"section about\">\n    <div class=\"container\">\n      <h2 class=\"section-title\">".data)
    ++ title
    ++ ("</h2>\n      <p>".data) ++ text
    ++ ("</p>\n    </div>\n  </section>".data)

/-- Method SafePreviewRenderer.renderContactSection. -/
def renderContactSection (props : JValue) : Str :=
  let title := escapeHtml (getStrOr props ("title".data) [])
  let subtitle := escapeHtml (getStrOr props ("subtitle".data) [])
  ("\n  <section class=\"section contact\">\n    <div class=\"container\">\n      <h2 class=\"section-title\">".data)
    ++ title
    ++ ("</h2>\n      <p class=\"contact-subtitle\">".data) ++ subtitle
    ++ ("</p>\n      <p style=\"color: #6c757d;\">Форма обратной связи будет добавлена после публикации.</p>\n    </div>\n  </section>".data)

/-- Method SafePreviewRenderer.renderFooterSection. -/
def renderFooterSection (props : JValue) : Str :=
  let copyright := escapeHtml (getStrOr props ("copyright".data) [])
  ("\n  <footer>\n    <div class=\"container\">\n      <p>".data)
    ++ copyright
    ++ ("</p>\n    </div>\n  </footer>".data)

/-- Method SafePreviewRenderer.renderSection: sanitize first (this can
throw), then dispatch on the section type; unknown (but whitelisted)
types render to the empty string. -/
def renderSection (brand : BrandM) (s : Section) : Except RenderErr Str :=
  (sanitizeSection s).map fun safe =>
    let props := safe.props
    if s.type == ("hero".data) then renderHeroSection props brand
    else if s.type == ("features".data) || s.type == ("services".data) then
      renderFeaturesSection props
    else if s.type == ("about".data) then renderAboutSection props
    else if s.type == ("contact".data) then renderContactSection props
    else if s.type == ("footer".data) then renderFooterSection props
    else []

/-- The body of Method SafePreviewRenderer.buildHtmlDocument: home page
(or first page) sections, filtered by the whitelist, rendered and joined
with newlines.  The surrounding constant document wrapper (doctype, the
escaped brand title and the theme-driven style block) does not depend on
the sections and is elided. -/
def buildHtmlBody (brand : BrandM) (pages : List Page) : Except RenderErr Str := do
  let home := (pages.find? (fun p => p.id == ("home".data))).orElse (fun _ => pages.head?)
  let sections := match home with | some p => p.sections | none => []
  let parts ← (sections.filter isSectionAllowed).mapM (renderSection brand)
  pure (List.intercalate ['\n'] parts)

/-- Method SafePreviewRenderer.renderJsonPreview: per page, keep only
whitelisted sections and sanitize each (sanitization can throw). -/
def safePages (pages : List Page) : Except RenderErr (List Page) :=
  pages.mapM fun p => do
    let ss ← (p.sections.filter isSectionAllowed).mapM sanitizeSection
    pure { p with sections := ss }

inductive PreviewFormat where
  | html : PreviewFormat
  | json : PreviewFormat

inductive PreviewOut where
  | html : Str → Str → PreviewOut
  | json : List Page → Str → PreviewOut

def PreviewOut.etag : PreviewOut → Str
  | .html _ e => e
  | .json _ e => e

/-- Method SafePreviewRenderer.render without the optional Frappe
adapter (when the adapter is absent or unavailable the source always
takes the built-in path modelled here): compute the ETag from the config
JSON, then branch on the format. -/
def renderPreview (hashContent : Str → Str) (brand : BrandM) (cfg : SiteConfigJson)
    (format : PreviewFormat) : Except RenderErr PreviewOut :=
  let etag := generateConfigETag hashContent cfg
  match format with
  | .json => (safePages cfg.pages).map (fun ps => .json ps etag)
  | .html => (buildHtmlBody brand cfg.pages).map (fun b => .html b etag)

structure ProjectRow where
  projectId : Str
  ownerUserId : Str
  ownerTenantId : Option Str
  draftId : Str
  status : Str
deriving DecidableEq, Repr

/-- One project_configs row; the payload columns (config_json,
config_hash, versions) are carried by no claim and elided. -/
structure ConfigRow where
  configId : Str
  projectId : Str
deriving DecidableEq, Repr

/-- The draft fields the use cases read: identity, the semantic
`isExpired()` outcome at the time of the call, the brand profile fields
the generator consumes, and `ttlSeconds`. -/
structure DraftRow where
  draftId : Str
  expired : Bool
  storedBrandName : Str
  industry : IndustryInfo
  logo : Option AssetInfoM
  ttlSeconds : Nat
deriving DecidableEq, Repr

/-- The shared stores: Redis lock keys (`SET NX`/`DEL`; the 30 s lock TTL
expiry is not modelled — no verified claim depends on it), the two
relational tables, and the Redis draft keys with their remaining TTL in
seconds. -/
structure SysState where
  locks : List Str
  projects : List ProjectRow
  configs : List ConfigRow
  drafts : List (Str × DraftRow × Nat)
deriving DecidableEq, Repr

def lockKeyFor (draftId : Str) : Str := ("lock:commit:".data) ++ draftId

/-- Redis `SET key 1 EX ttl NX`: fails if the key exists. -/
def acquireLock (key : Str) (st : SysState) : Bool × SysState :=
  if st.locks.contains key then (false, st)
  else (true, { st with locks := key :: st.locks })

/-- Redis `DEL key` (the CommitDraftUseCase releaseLock). -/
def releaseLock (key : Str) (st : SysState) : SysState :=
  { st with locks := st.locks.erase key }

/-- Method SiteDraftRepositoryRedis.findById: `GET`, then optionally
`EXPIRE key draft.ttlSeconds` (the sliding-TTL refresh). -/
def draftFindById (refresh : Bool) (id : Str) (st : SysState) :
    Option DraftRow × SysState :=
  match st.drafts.find? (fun e => e.1 == id) with
  | none => (none, st)
  | some (_, d, _) =>
    if refresh then
      let refreshed := st.drafts.map fun e =>
        if e.1 == id then (e.1, e.2.1, e.2.1.ttlSeconds) else e
      (some d, { st with drafts := refreshed })
    else (some d, st)

/-- Method SiteDraftRepositoryRedis.getTTL: remaining seconds, null when
the key is absent. -/
def draftGetTTL (id : Str) (st : SysState) : Option Nat :=
  (st.drafts.find? (fun e => e.1 == id)).map (fun e => e.2.2)

/-- Method SiteDraftRepositoryRedis.delete (`DEL draft:id`). -/
def draftDelete (id : Str) (st : SysState) : SysState :=
  { st with drafts := st.drafts.filter (fun e => !(e.1 == id)) }

/-- Method ProjectRepositoryPostgres.findProjectByDraftId. -/
def findProjectByDraftId (st : SysState) (draftId : Str) : Option ProjectRow :=
  st.projects.find? (fun p => p.draftId == draftId)

/-- Method ProjectRepositoryPostgres.getProjectConfig:
`ORDER BY created_at DESC LIMIT 1` over insertion-ordered rows is the
most recently inserted row for the project. -/
def getProjectConfig (st : SysState) (projectId : Str) : Option ConfigRow :=
  (st.configs.filter (fun c => c.projectId == projectId)).getLast?

inductive CommitErr where
  | commitInProgress : CommitErr
  | draftNotFound : CommitErr
  | draftExpired : CommitErr
  | uniqueViolation : CommitErr
deriving DecidableEq, Repr

/-- Method ProjectRepositoryPostgres.createProjectWithConfig: a single
transaction inserting both rows; the `UNIQUE (draft_id)` constraint makes
it fail (with a rolled-back state) when a project for the draft already
exists.  The source rethrows the 23505 violation as an error, which the
use case propagates. -/
def createProjectWithConfig (p : ProjectRow) (c : ConfigRow) (st : SysState) :
    Except CommitErr SysState :=
  if st.projects.any (fun q => q.draftId == p.draftId) then .error .uniqueViolation
  else .ok { st with projects := st.projects ++ [p], configs := st.configs ++ [c] }

inductive CommitStatus where
  | migrated : CommitStatus
  | alreadyCommitted : CommitStatus
deriving DecidableEq, Repr

structure CommitOutput where
  draftId : Str
  projectId : Str
  configId : Str
  status : CommitStatus
deriving DecidableEq, Repr

/-- Method CommitDraftUseCase.execute.  The body is one try/catch: any
error thrown inside the try — including the CommitLockError thrown when
acquisition FAILED — reaches the catch, which runs releaseLock (a Redis
DEL on the lock key) and rethrows.  The ALREADY_COMMITTED branch returns
from inside the try without any release.  The fresh ids produced by
Project.generateId / ProjectConfig.generateId are parameters. -/
def commitExecute (draftId ownerUserId : Str) (freshProjectId freshConfigId : Str)
    (st0 : SysState) : Except CommitErr CommitOutput × SysState :=
  let lockKey := lockKeyFor draftId
  let (acquired, st1) := acquireLock lockKey st0
  if !acquired then
    (.error .commitInProgress, releaseLock lockKey st1)
  else
    match findProjectByDraftId st1 draftId with
    | some existing =>
      let cfg := getProjectConfig st1 existing.projectId
      (.ok ⟨draftId, existing.projectId, (cfg.map (fun c => c.configId)).getD [],
            .alreadyCommitted⟩, st1)
    | none =>
      match (draftFindById false draftId st1).1 with
      | none => (.error .draftNotFound, releaseLock lockKey st1)
      | some draft =>
        if draft.expired then (.error .draftExpired, releaseLock lockKey st1)
        else
          let project : ProjectRow :=
            ⟨freshProjectId, ownerUserId, none, draftId, ("DRAFT".data)⟩
          let config : ConfigRow := ⟨freshConfigId, freshProjectId⟩
          match createProjectWithConfig project config st1 with
          | .error e => (.error e, releaseLock lockKey st1)
          | .ok st2 =>
            let st3 := draftDelete draftId st2
            let st4 := releaseLock lockKey st3
            (.ok ⟨draftId, freshProjectId, freshConfigId, .migrated⟩, st4)

inductive UseCaseErr where
  | draftNotFound : UseCaseErr
  | draftExpired : UseCaseErr
  | render : RenderErr → UseCaseErr
deriving DecidableEq, Repr

/-- Method GetPreviewUseCase.execute: findById with refreshTtl=true (the
sliding-TTL refresh happens before the expiry check), then the semantic
expiry check, then generate + render.  The impure configId/generatedAt of
the generation and the hash are parameters. -/
def getPreviewExecute (hashContent : Str → Str) (configId generatedAt : Str)
    (id : Str) (format : PreviewFormat) (st : SysState) :
    Except UseCaseErr PreviewOut × SysState :=
  let (found, st1) := draftFindById true id st
  match found with
  | none => (.error .draftNotFound, st1)
  | some d =>
    if d.expired then (.error .draftExpired, st1)
    else
      let cfg := generateConfig d.storedBrandName d.industry d.logo id configId generatedAt
      let brand : BrandM := ⟨normalizeBrandName d.storedBrandName, d.logo.map (fun l => l.url)⟩
      match renderPreview hashContent brand cfg format with
      | .error e => (.error (.render e), st1)
      | .ok out => (.ok out, st1)

/-- Method GetDraftUseCase.execute: findById with refreshTtl=false (a
bare read never slides the TTL), then the semantic expiry check. -/
def getDraftExecute (id : Str) (st : SysState) :
    Except UseCaseErr DraftRow × SysState :=
  let (found, st1) := draftFindById false id st
  match found with
  | none => (.error .draftNotFound, st1)
  | some d =>
    if d.expired then (.error .draftExpired, st1)
    else (.ok d, st1)

def TOK_BRAND : Str := "\x7b\x7bbrandName\x7d\x7d".data
def TOK_INDUSTRY : Str := "\x7b\x7bindustryLabel\x7d\x7d".data
def TOK_LOGOURL : Str := "\x7b\x7blogoUrl\x7d\x7d".data
def TOK_SLUG : Str := "\x7b\x7bslug\x7d\x7d".data
def TOK_LOGOASSET : Str := "\x7b\x7blogoAssetId\x7d\x7d".data

/-- The closed token alphabet. -/
def TOKEN_LIST : List Str :=
  [TOK_BRAND, TOK_INDUSTRY, TOK_LOGOURL, TOK_SLUG, TOK_LOGOASSET]

/-- No token of the closed alphabet occurs in the string. -/
def strTokenFree (s : Str) : Bool := TOKEN_LIST.all (fun t => !(hasInfixL t s))

mutual

/-- All strings reachable in a props tree. -/
def collectStrings : JValue → List Str
  | .jstr s => [s]
  | .jarr xs => collectStringsList xs
  | .jobj fs => collectStringsFields fs
  | _ => []

def collectStringsList : List JValue → List Str
  | [] => []
  | x :: xs => collectStrings x ++ collectStringsList xs

def collectStringsFields : List (Str × JValue) → List Str
  | [] => []
  | (_, v) :: fs => collectStrings v ++ collectStringsFields fs

end

def pageStrings (p : Page) : List Str :=
  p.title :: p.sections.flatMap (fun s => collectStrings s.props)

/-- Every string of every generated page is free of literal tokens. -/
def pagesTokenFree (ps : List Page) : Bool :=
  (ps.flatMap pageStrings).all strTokenFree

/-- Erase the sections whose type is outside the whitelist. -/
def dropDisallowed (p : Page) : Page :=
  { p with sections := p.sections.filter isSectionAllowed }

def sectionLogoAssetId (sec : Section) : Option JValue :=
  match sec.props with
  | .jobj fs => lookupField fs ("logoAssetId".data)
  | _ => none

/-- The brand name of end-to-end scenario 3 of the spec:
Tech<script>alert('xss')</script>Corp. -/
def xssBrand : Str :=
  ("Tech<script>alert(".data) ++ '\'' :: ("xss".data) ++ '\'' :: (")</script>Corp".data)

def techIndustry : IndustryInfo := ⟨"tech".data, "Технологии".data⟩

def xssDraft : DraftRow := ⟨"drf_x".data, false, xssBrand, techIndustry, none, 86400⟩

def xssState : SysState := ⟨[], [], [], [("drf_x".data, xssDraft, 86400)]⟩

def acmeDraft : DraftRow := ⟨"drf_1".data, false, "Acme".data, techIndustry, none, 86400⟩

def baseState : SysState := ⟨[], [], [], [("drf_1".data, acmeDraft, 86400)]⟩

/-- A state in which another writer currently holds `lock:commit:drf_1`. -/
def heldLockState : SysState :=
  ⟨[lockKeyFor ("drf_1".data)], [], [], [("drf_1".data, acmeDraft, 86400)]⟩

/-- A state after a successful earlier commit of drf_1 (project and
config rows durable, draft deleted, lock free). -/
def committedState : SysState :=
  ⟨[], [⟨"prj_P1".data, "usr_A".data, none, "drf_1".data, ("DRAFT".data)⟩],
   [⟨"cfg_C1".data, "prj_P1".data⟩], []⟩

/-- A concrete 16-hex-character stand-in for the truncated sha256 used
when a closed theorem has to evaluate the parametric hash; it is
deliberately CONSTANT, so any ETag difference it exhibits comes from the
plaintext configId prefix, not from the hash. -/
def fixedHash : Str → Str := fun _ => "0123456789abcdef".data

def previewRun1 :
    (Except UseCaseErr PreviewOut) × SysState :=
  getPreviewExecute fixedHash ("cfg_A1".data) ("2026-01-01T00:00:00.000Z".data)
    ("drf_1".data) .html baseState

def previewRun2 :
    (Except UseCaseErr PreviewOut) × SysState :=
  getPreviewExecute fixedHash ("cfg_A2".data) ("2026-01-01T00:00:01.000Z".data)
    ("drf_1".data) .html previewRun1.2

/-- The hero section the generator produces for the xss draft. -/
def xssHeroSection : Section :=
  (((generatePagesForDraft xssBrand techIndustry none).head?).bind
    (fun p => p.sections.head?)).getD ⟨[], [], .jnull⟩

def xssHeadline : Str := getStrOr xssHeroSection.props ("headline".data) []

/-- The preview output of the first run (defaulted projection; the run
does succeed, as proved below). -/
def previewRun1Out : PreviewOut := (previewRun1.1).toOption.getD (.html [] [])

/-- At most one row per draft_id: the invariant the
`UNIQUE (draft_id)` constraint of the projects table maintains. -/
def uniqueDraftIds : List ProjectRow → Bool
  | [] => true
  | r :: rs => (!(rs.any (fun q => q.draftId == r.draftId))) && uniqueDraftIds rs

theorem filter_allowed_idem (ss : List Section) :
    (ss.filter isSectionAllowed).filter isSectionAllowed = ss.filter isSectionAllowed := by
  rw [List.filter_filter]
  congr 1
  funext a
  exact Bool.and_self _

theorem find?_refresh (id : Str) (l : List (Str × DraftRow × Nat)) (d : DraftRow) (t0 : Nat)
    (h : l.find? (fun e => e.1 == id) = some (id, d, t0)) :
    (l.map (fun e => if e.1 == id then (e.1, e.2.1, e.2.1.ttlSeconds) else e)).find?
      (fun e => e.1 == id) = some (id, d, d.ttlSeconds) := by
  induction l with
  | nil => simp at h
  | cons x xs ih =>
    by_cases hx : (x.1 == id) = true
    · rw [@List.find?_cons_of_pos _ (fun e => e.1 == id) x xs hx] at h
      have hx2 : x = (id, d, t0) := by injection h
      subst hx2
      simp only [List.map_cons]
      rw [if_pos hx]
      exact @List.find?_cons_of_pos _ (fun e => e.1 == id) (id, d, d.ttlSeconds) _ hx
    · rw [@List.find?_cons_of_neg _ (fun e => e.1 == id) x xs hx] at h
      simp only [List.map_cons]
      rw [if_neg hx]
      rw [@List.find?_cons_of_neg _ (fun e => e.1 == id) x _ hx]
      exact ih h

theorem draftFindById_refresh_ttl (id : Str) (st : SysState) (d : DraftRow) (t0 : Nat)
    (h : st.drafts.find? (fun e => e.1 == id) = some (id, d, t0)) :
    draftGetTTL id (draftFindById true id st).2 = some d.ttlSeconds := by
  unfold draftFindById
  rw [h]
  unfold draftGetTTL
  dsimp only
  rw [if_pos rfl]
  dsimp only
  rw [find?_refresh id st.drafts d t0 h]
  rfl

theorem getPreviewExecute_snd (hc : Str → Str) (cid gat id : Str)
    (fmt : PreviewFormat) (st : SysState) :
    (getPreviewExecute hc cid gat id fmt st).2 = (draftFindById true id st).2 := by
  unfold getPreviewExecute
  rcases h : draftFindById true id st with ⟨found, st1⟩
  cases found with
  | none => simp
  | some d =>
    by_cases hd : d.expired
    · simp [hd]
    · simp only [hd]
      cases renderPreview hc ⟨normalizeBrandName d.storedBrandName, d.logo.map (fun l => l.url)⟩
        (generateConfig d.storedBrandName d.industry d.logo id cid gat) fmt <;> simp [hd]

/-- C2: evaluation of CommitDraftUseCase.execute at the two concrete
lock scenarios.  When the lock is already held by another writer the
attempt does fail with CommitInProgress, but the catch-all error handler
then runs releaseLock, DELETING the current holder's lock entry (the
resulting lock set is empty instead of unchanged).  Conversely, on the
ALREADY_COMMITTED path the use case returns from inside the try without
releasing, so its own lock entry is still set after the response. -/
theorem commitReleasesForeignLockAndSkipsReleaseOnReplay :
    (commitExecute ("drf_1".data) ("usr_B".data) ("prj_P9".data) ("cfg_C9".data)
        heldLockState).1 = .error .commitInProgress
    ∧ (commitExecute ("drf_1".data) ("usr_B".data) ("prj_P9".data) ("cfg_C9".data)
        heldLockState).2.locks = []
    ∧ (commitExecute ("drf_1".data) ("usr_B".data) ("prj_P9".data) ("cfg_C9".data)
        committedState).1
      = .ok ⟨"drf_1".data, "prj_P1".data, "cfg_C1".data, .alreadyCommitted⟩
    ∧ lockKeyFor ("drf_1".data) ∈
        (commitExecute ("drf_1".data) ("usr_B".data) ("prj_P9".data) ("cfg_C9".data)
          committedState).2.locks := by
  decide

/-- C3: two back-to-back HTML previews of the same unchanged draft both
succeed but return DIFFERENT ETags, because each call regenerates the
config with a fresh configId (embedded in the ETag prefix) and hashes
the full `JSON.stringify(configJson)`, whose serialization contains both
the configId and the generatedAt timestamp (last two conjuncts); the
stand-in hash is constant, so the difference is forced by the config id
alone.  The draft rows themselves are identical across the two calls
(only the TTL slides), witnessing `unchanged draft`. -/
theorem etagUnstableAcrossPreviews :
    (previewRun1.1.map PreviewOut.etag).isOk = true
    ∧ (previewRun2.1.map PreviewOut.etag).isOk = true
    ∧ previewRun1.1.map PreviewOut.etag ≠ previewRun2.1.map PreviewOut.etag
    ∧ previewRun1.2.drafts.map (fun e => e.2.1) = baseState.drafts.map (fun e => e.2.1)
    ∧ hasInfixL ("cfg_A1".data)
        (jsonStringify (configToJson (generateConfig ("Acme".data) techIndustry none
          ("drf_1".data) ("cfg_A1".data) ("2026-01-01T00:00:00.000Z".data)))) = true
    ∧ hasInfixL ("2026-01-01T00:00:00.000Z".data)
        (jsonStringify (configToJson (generateConfig ("Acme".data) techIndustry none
          ("drf_1".data) ("cfg_A1".data) ("2026-01-01T00:00:00.000Z".data)))) = true := by
  decide

/-- C4 counterexample: for the draft whose brand name is
Tech<script>alert('xss')</script>Corp, the HTML preview does NOT succeed
(the claim asserts it returns a preview with the script tag escaped). -/
theorem xssPreviewDoesNotSucceed :
    ((getPreviewExecute fixedHash ("cfg_A1".data) ("t1".data) ("drf_x".data) .html
        xssState).1.map PreviewOut.etag).isOk = false := by
  decide

/-- C4 amended: the preview of that draft aborts with the unsafe-content
error: the resolved hero headline carries the literal `<script>` from the
brand name, so sanitizeSection's scan of the section JSON matches
`<script` and throws before any HTML is produced. -/
theorem xssPreviewAbortsUnsafe :
    (getPreviewExecute fixedHash ("cfg_A1".data) ("t1".data) ("drf_x".data) .html
        xssState).1.map PreviewOut.etag = .error (.render .unsafeContent)
    ∧ hasInfixL ("<script".data) xssHeadline = true
    ∧ containsUnsafeContent (jsonStringify (sectionToJson xssHeroSection)) = true := by
  decide

/-- C7 counterexample: the brand name stored in a draft for the input
from the spec's boundary test is NOT the normalized "Acme Co". -/
theorem brandNameNotNormalizedAtStore :
    BrandName.create ("  Acme\x00  \t\tCo  ".data) ≠ .ok ("Acme Co".data) := by
  decide

/-- C7 amended: BrandName.create stores the TRIMMED input verbatim and
only validates `1 ≤ length ≤ 100` (rejecting, not truncating, an
over-long name); the control-character removal, whitespace collapsing
and 100-point truncation of the claim happen later, in the generator's
normalizeBrandName, which maps the stored value to "Acme Co". -/
theorem brandNameTrimOnlyAtStore :
    BrandName.create ("  Acme\x00  \t\tCo  ".data) = .ok ("Acme\x00  \t\tCo".data)
    ∧ normalizeBrandName ("Acme\x00  \t\tCo".data) = ("Acme Co".data)
    ∧ BrandName.create [] = .error .emptyBrand
    ∧ BrandName.create (List.replicate 100 'a') = .ok (List.replicate 100 'a')
    ∧ BrandName.create (List.replicate 101 'a') = .error .brandTooLong := by
  decide

/-- C8 counterexample: IndustryInfo.create does not map the unknown code
to `other`; the industry recorded for code "unknown" keeps that code. -/
theorem unknownIndustryNotMappedToOther :
    (IndustryInfo.create ("unknown".data) none).map (fun i => i.code)
      ≠ .ok ("other".data) := by
  decide

/-- C8 amended: IndustryInfo.create stores the given code verbatim (the
taxonomy map only supplies the label fallback, with the code itself as
last resort); the closed set is enforced earlier, by the z.enum request
validation of the HTTP boundary, which rejects "unknown" rather than
remapping it. -/
theorem industryCodeStoredVerbatim :
    (IndustryInfo.create ("unknown".data) none) = .ok ⟨"unknown".data, "unknown".data⟩
    ∧ (IndustryInfo.create ("tech".data) none) = .ok ⟨"tech".data, "Технологии".data⟩
    ∧ industrySchemaAllows ("unknown".data) = false
    ∧ (INDUSTRY_MAP.map (fun p => p.1)).all industrySchemaAllows = true := by
  decide


theorem uniqueDraftIds_append (l : List ProjectRow) (row : ProjectRow)
    (h : uniqueDraftIds l = true) (hany : l.any (fun q => q.draftId == row.draftId) = false) :
    uniqueDraftIds (l ++ [row]) = true := by
  induction l with
  | nil => simp [uniqueDraftIds]
  | cons r rs ih =>
    simp only [uniqueDraftIds, Bool.and_eq_true, Bool.not_eq_true'] at h
    simp only [List.any_cons, Bool.or_eq_false_iff] at hany
    simp only [List.cons_append, uniqueDraftIds, Bool.and_eq_true, Bool.not_eq_true',
      List.append_eq]
    constructor
    · simp only [List.any_append, h.1, List.any_cons, List.any_nil, Bool.or_false,
        Bool.false_or]
      rw [beq_eq_false_iff_ne]
      rw [beq_eq_false_iff_ne] at hany
      exact fun e => hany.1 e.symm
    · exact ih h.2 hany.2

theorem find?_none_of_any_false (l : List ProjectRow) (d : Str)
    (h : l.any (fun q => q.draftId == d) = false) :
    l.find? (fun q => q.draftId == d) = none := by
  induction l with
  | nil => rfl
  | cons r rs ih =>
    simp only [List.any_cons, Bool.or_eq_false_iff] at h
    rw [@List.find?_cons_of_neg _ (fun q => q.draftId == d) r rs (by simp [h.1])]
    exact ih h.2

/-- C1: the UNIQUE(draft_id) constraint modelled in
createProjectWithConfig preserves the at-most-one-project-row-per-draft
invariant across every commitExecute call, and a Commit issued after a
successful MIGRATED commit of the same draft returns ALREADY_COMMITTED
carrying exactly the projectId and configId of the first response (the
idempotency check finds the durable row and its latest config row). -/
theorem commitUniqueAndIdempotentReplay :
    (∀ (st : SysState) (d o p c : Str),
       uniqueDraftIds st.projects = true →
       uniqueDraftIds (commitExecute d o p c st).2.projects = true)
    ∧ (∀ (st st1 : SysState) (d o p c o2 p2 c2 : Str) (out : CommitOutput),
       commitExecute d o p c st = (.ok out, st1) → out.status = .migrated →
       (commitExecute d o2 p2 c2 st1).1
         = .ok ⟨d, out.projectId, out.configId, .alreadyCommitted⟩) := by
  constructor
  ·   intro st d o p c h
      unfold commitExecute
      dsimp only
      by_cases hl : (st.locks.contains (lockKeyFor d)) = true
      · have ha : acquireLock (lockKeyFor d) st = (false, st) := by
          unfold acquireLock
          rw [if_pos hl]
        rw [ha]
        simp only [Bool.not_false]
        rw [if_pos trivial]
        dsimp only [releaseLock]
        exact h
      · have ha : acquireLock (lockKeyFor d) st
            = (true, { st with locks := lockKeyFor d :: st.locks }) := by
          unfold acquireLock
          rw [if_neg hl]
        rw [ha]
        dsimp only
        simp only [Bool.not_true, Bool.false_eq_true, if_false]
        cases hfp : findProjectByDraftId { st with locks := lockKeyFor d :: st.locks } d with
        | some existing =>
          dsimp only
          exact h
        | none =>
          dsimp only
          cases hdf : (draftFindById false d { st with locks := lockKeyFor d :: st.locks }).1 with
          | none =>
            dsimp only [releaseLock]
            exact h
          | some draft =>
            dsimp only
            by_cases hexp : draft.expired = true
            · rw [if_pos hexp]
              exact h
            · rw [if_neg hexp]
              by_cases hany : st.projects.any (fun q => q.draftId == d) = true
              · have hc : createProjectWithConfig
                    ⟨p, o, none, d, ("DRAFT".data)⟩ ⟨c, p⟩
                    { st with locks := lockKeyFor d :: st.locks } = .error .uniqueViolation := by
                  unfold createProjectWithConfig
                  rw [if_pos hany]
                rw [hc]
                exact h
              · simp only [Bool.not_eq_true] at hany
                have hc : createProjectWithConfig
                    ⟨p, o, none, d, ("DRAFT".data)⟩ ⟨c, p⟩
                    { st with locks := lockKeyFor d :: st.locks }
                    = .ok ⟨lockKeyFor d :: st.locks,
                           st.projects ++ [⟨p, o, none, d, ("DRAFT".data)⟩],
                           st.configs ++ [⟨c, p⟩], st.drafts⟩ := by
                  unfold createProjectWithConfig
                  rw [if_neg (by simp [hany])]
                rw [hc]
                exact uniqueDraftIds_append st.projects _ h hany
  
  ·   intro st st1 d o p c o2 p2 c2 out hrun hst
      unfold commitExecute at hrun
      dsimp only at hrun
      by_cases hl : st.locks.contains (lockKeyFor d) = true
      · have ha : acquireLock (lockKeyFor d) st = (false, st) := by
          unfold acquireLock
          rw [if_pos hl]
        rw [ha] at hrun
        simp only [Bool.not_false] at hrun
        rw [if_pos trivial] at hrun
        simp at hrun
      · have ha : acquireLock (lockKeyFor d) st
            = (true, { st with locks := lockKeyFor d :: st.locks }) := by
          unfold acquireLock
          rw [if_neg hl]
        rw [ha] at hrun
        simp only [Bool.not_true, Bool.false_eq_true, if_false] at hrun
        cases hfp : findProjectByDraftId { st with locks := lockKeyFor d :: st.locks } d with
        | some existing =>
          rw [hfp] at hrun
          dsimp only at hrun
          have h1 := congrArg Prod.fst hrun
          dsimp at h1
          injection h1 with h1
          rw [← h1] at hst
          simp at hst
        | none =>
          rw [hfp] at hrun
          dsimp only at hrun
          cases hdf : (draftFindById false d { st with locks := lockKeyFor d :: st.locks }).1 with
          | none =>
            rw [hdf] at hrun
            simp at hrun
          | some draft =>
            rw [hdf] at hrun
            dsimp only at hrun
            by_cases hexp : draft.expired = true
            · rw [if_pos hexp] at hrun
              simp at hrun
            · rw [if_neg hexp] at hrun
              by_cases hany : st.projects.any (fun q => q.draftId == d) = true
              · have hc : createProjectWithConfig
                    ⟨p, o, none, d, ("DRAFT".data)⟩ ⟨c, p⟩
                    { st with locks := lockKeyFor d :: st.locks } = .error .uniqueViolation := by
                  unfold createProjectWithConfig
                  rw [if_pos hany]
                rw [hc] at hrun
                simp at hrun
              · simp only [Bool.not_eq_true] at hany
                have hc : createProjectWithConfig
                    ⟨p, o, none, d, ("DRAFT".data)⟩ ⟨c, p⟩
                    { st with locks := lockKeyFor d :: st.locks }
                    = .ok ⟨lockKeyFor d :: st.locks,
                           st.projects ++ [⟨p, o, none, d, ("DRAFT".data)⟩],
                           st.configs ++ [⟨c, p⟩], st.drafts⟩ := by
                  unfold createProjectWithConfig
                  rw [if_neg (by simp [hany])]
                rw [hc] at hrun
                dsimp only [draftDelete, releaseLock] at hrun
                have h1 := congrArg Prod.fst hrun
          
                have h2 := congrArg Prod.snd hrun
                dsimp at h1 h2
                injection h1 with h1
                rw [List.erase_cons_head] at h2
                -- h2 : ⟨st.locks, st.projects ++ [row], st.configs ++ [cfg], filtered⟩ = st1
                subst h2
                subst h1
                -- second call
                unfold commitExecute
                dsimp only
                have ha2 : acquireLock (lockKeyFor d)
                    ⟨st.locks, st.projects ++ [⟨p, o, none, d, ("DRAFT".data)⟩],
                     st.configs ++ [⟨c, p⟩],
                     st.drafts.filter (fun e => !(e.1 == d))⟩
                    = (true, ⟨lockKeyFor d :: st.locks,
                              st.projects ++ [⟨p, o, none, d, ("DRAFT".data)⟩],
                              st.configs ++ [⟨c, p⟩],
                              st.drafts.filter (fun e => !(e.1 == d))⟩) := by
                  unfold acquireLock
                  rw [if_neg hl]
                rw [ha2]
                simp only [Bool.not_true, Bool.false_eq_true, if_false]
                have hfp2 : findProjectByDraftId
                    ⟨lockKeyFor d :: st.locks,
                     st.projects ++ [⟨p, o, none, d, ("DRAFT".data)⟩],
                     st.configs ++ [⟨c, p⟩],
                     st.drafts.filter (fun e => !(e.1 == d))⟩ d
                    = some ⟨p, o, none, d, ("DRAFT".data)⟩ := by
                  unfold findProjectByDraftId
                  dsimp only
                  rw [List.find?_append, find?_none_of_any_false st.projects d hany]
                  rw [@List.find?_cons_of_pos _ (fun (q : ProjectRow) => q.draftId == d)
                        ⟨p, o, none, d, ("DRAFT".data)⟩ [] (beq_self_eq_true d)]
                  rfl
                rw [hfp2]
                dsimp only
                have hcfg : getProjectConfig
                    ⟨lockKeyFor d :: st.locks,
                     st.projects ++ [⟨p, o, none, d, ("DRAFT".data)⟩],
                     st.configs ++ [⟨c, p⟩],
                     st.drafts.filter (fun e => !(e.1 == d))⟩ p
                    = some ⟨c, p⟩ := by
                  unfold getProjectConfig
                  dsimp only
                  rw [List.filter_append]
                  show (_ ++ List.filter _ [ConfigRow.mk c p]).getLast? = _
                  rw [List.filter_cons_of_pos]
                  · rw [List.filter_nil]
                    exact List.getLast?_concat _
                  · exact beq_self_eq_true p
                rw [hcfg]
                rfl
  

/-- C1 witness: a concrete first commit of drf_1 preserves uniqueness and
its immediate replay returns ALREADY_COMMITTED with the same ids. -/
theorem commitUniqueAndIdempotentReplay_witness :
    uniqueDraftIds (commitExecute ("drf_1".data) ("usr_A".data) ("prj_P1".data)
      ("cfg_C1".data) baseState).2.projects = true
    ∧ (commitExecute ("drf_1".data) ("usr_B".data) ("prj_P2".data) ("cfg_C2".data)
        (commitExecute ("drf_1".data) ("usr_A".data) ("prj_P1".data) ("cfg_C1".data)
          baseState).2).1
      = .ok ⟨"drf_1".data, "prj_P1".data, "cfg_C1".data, .alreadyCommitted⟩ :=
  ⟨commitUniqueAndIdempotentReplay.1 baseState ("drf_1".data) ("usr_A".data)
      ("prj_P1".data) ("cfg_C1".data) (by decide),
   commitUniqueAndIdempotentReplay.2 baseState
      (commitExecute ("drf_1".data) ("usr_A".data) ("prj_P1".data) ("cfg_C1".data)
        baseState).2
      ("drf_1".data) ("usr_A".data) ("prj_P1".data) ("cfg_C1".data)
      ("usr_B".data) ("prj_P2".data) ("cfg_C2".data)
      ⟨"drf_1".data, "prj_P1".data, "cfg_C1".data, .migrated⟩ (by rfl) (by rfl)⟩

theorem ifEmptyElse (x : Str) : (if x = [] then ([] : Str) else x) = x := by
  by_cases hx : x = []
  · rw [if_pos hx, hx]
  · rw [if_neg hx]

theorem ifNotEmptyElseNil (x : Str) : (if x ≠ [] then x else ([] : Str)) = x := by
  by_cases hx : x = []
  · rw [if_neg (by simp [hx]), hx]
  · rw [if_pos hx]

/-- C6: the set of renderable section types is exactly the eleven of the
whitelist, and a section whose type is outside the whitelist leaves no
trace in the preview output: erasing all disallowed sections from the
pages changes neither the rendered HTML body nor the JSON preview
model. -/
theorem sectionWhitelistExactAndDisallowedInvisible :
    ALLOWED_SECTION_TYPES =
      [("hero".data), ("features".data), ("about".data), ("contact".data),
       ("services".data), ("gallery".data), ("testimonials".data),
       ("pricing".data), ("faq".data), ("team".data), ("footer".data)]
    ∧ (∀ (brand : BrandM) (pages : List Page),
        buildHtmlBody brand (pages.map dropDisallowed) = buildHtmlBody brand pages)
    ∧ (∀ pages : List Page, safePages (pages.map dropDisallowed) = safePages pages) := by
  refine ⟨rfl, ?_, ?_⟩
  · intro brand pages
    unfold buildHtmlBody
    have hfind : (pages.map dropDisallowed).find? (fun p => p.id == ("home".data))
        = (pages.find? (fun p => p.id == ("home".data))).map dropDisallowed := by
      rw [List.find?_map]
      congr 1
    have hhead : (pages.map dropDisallowed).head? = pages.head?.map dropDisallowed :=
      List.head?_map ..
    rw [hfind, hhead]
    have horelse : ∀ (a b : Option Page),
        ((a.map dropDisallowed).orElse (fun _ => b.map dropDisallowed))
          = (a.orElse (fun _ => b)).map dropDisallowed := by
      intro a b; cases a <;> rfl
    rw [horelse]
    cases (pages.find? (fun p => p.id == ("home".data))).orElse (fun _ => pages.head?) with
    | none => rfl
    | some p =>
      dsimp only [Option.map, dropDisallowed]
      rw [filter_allowed_idem]
  · intro pages
    unfold safePages
    induction pages with
    | nil => rfl
    | cons p ps ih =>
      rw [List.map_cons, List.mapM_cons, List.mapM_cons, ih]
      have hp : ((dropDisallowed p).sections.filter isSectionAllowed)
          = (p.sections.filter isSectionAllowed) := by
        rw [dropDisallowed]
        exact filter_allowed_idem _
      rw [hp]
      rfl

/-- C9: after a successful GetPreview the stored draft's remaining TTL is
reset to the draft's ttlSeconds (the model's exact form of lying within
`[ttlSeconds − ε, ttlSeconds]`; the refresh happens inside findById with
refreshTtl=true); GetDraft leaves the whole store — hence the remaining
TTL — unchanged, so between reads it can only decrease with the passage
of time. -/
theorem previewSlidesTtlGetDraftDoesNot :
    (∀ (hashContent : Str → Str) (configId generatedAt id : Str) (format : PreviewFormat)
       (st : SysState) (d : DraftRow) (t0 : Nat) (out : PreviewOut) (st' : SysState),
       st.drafts.find? (fun e => e.1 == id) = some (id, d, t0) →
       getPreviewExecute hashContent configId generatedAt id format st = (.ok out, st') →
       draftGetTTL id st' = some d.ttlSeconds)
    ∧ (∀ (id : Str) (st : SysState), (getDraftExecute id st).2 = st) := by
  constructor
  · intro hc cid gat id fmt st d t0 out st' hfind hrun
    have hsnd : st' = (getPreviewExecute hc cid gat id fmt st).2 := by rw [hrun]
    rw [hsnd, getPreviewExecute_snd]
    exact draftFindById_refresh_ttl id st d t0 hfind
  · intro id st
    unfold getDraftExecute draftFindById
    cases h : st.drafts.find? (fun e => e.1 == id) with
    | none => simp
    | some e =>
      rcases e with ⟨k, d, t⟩
      by_cases hd : d.expired <;> simp [hd]

/-- C9 witness: the concrete first preview run slides the TTL of drf_1
back to 86400, and a GetDraft on the base state leaves it untouched. -/
theorem previewSlidesTtl_witness :
    draftGetTTL ("drf_1".data) previewRun1.2 = some acmeDraft.ttlSeconds
    ∧ (getDraftExecute ("drf_1".data) baseState).2 = baseState :=
  ⟨previewSlidesTtlGetDraftDoesNot.1 fixedHash ("cfg_A1".data)
      ("2026-01-01T00:00:00.000Z".data) ("drf_1".data) .html baseState acmeDraft 86400
      previewRun1Out previewRun1.2 (by decide) (by rfl),
   previewSlidesTtlGetDraftDoesNot.2 ("drf_1".data) baseState⟩

/-- C10: every string prop a section builder emits is escaped twice —
once by sanitizeSection (escapeHtmlInObject) and once again inside the
per-type builder — so user text reaches the HTML body double-escaped
(last conjuncts: `&` emits `&amp;amp;`, `<` emits `&amp;lt;`, and so on
for the five escaped characters).  One conjunct per built-in builder
(hero, features — shared with services —, about, contact, footer), each
for arbitrary string props that pass the unsafe-content scan. -/
theorem renderedSectionsDoubleEscape :
    (∀ (sid bn h s : Str),
      containsUnsafeContent (jsonStringify (sectionToJson
        ⟨sid, "hero".data, .jobj [("headline".data, .jstr h),
          ("subheadline".data, .jstr s)]⟩)) = false →
      renderSection ⟨bn, none⟩
        ⟨sid, "hero".data, .jobj [("headline".data, .jstr h),
          ("subheadline".data, .jstr s)]⟩
      = .ok (("\n  <section class=\"hero\">\n    <div class=\"container\">\n      ".data)
          ++ ("\n      <h1>".data) ++ escapeHtml (escapeHtml h)
          ++ ("</h1>\n      <p>".data) ++ escapeHtml (escapeHtml s)
          ++ ("</p>\n      <div>\n        ".data) ++ ("\n        ".data)
          ++ ("\n      </div>\n    </div>\n  </section>".data)))
    ∧ (∀ (sid t it tx : Str),
      containsUnsafeContent (jsonStringify (sectionToJson
        ⟨sid, "features".data, .jobj [("title".data, .jstr t),
          ("items".data, .jarr [.jobj [("title".data, .jstr it),
            ("text".data, .jstr tx)]])]⟩)) = false →
      renderSection ⟨[], none⟩
        ⟨sid, "features".data, .jobj [("title".data, .jstr t),
          ("items".data, .jarr [.jobj [("title".data, .jstr it),
            ("text".data, .jstr tx)]])]⟩
      = .ok (("\n  <section class=\"section\">\n    <div class=\"container\">\n      <h2 class=\"section-title\">".data)
          ++ escapeHtml (escapeHtml t)
          ++ ("</h2>\n      <div class=\"features-grid\">\n        ".data)
          ++ (("\n        <div class=\"feature-card\">\n          <h3>".data)
              ++ escapeHtml (escapeHtml it)
              ++ ("</h3>\n          <p>".data)
              ++ escapeHtml (escapeHtml tx)
              ++ ("</p>\n        </div>\n      ".data))
          ++ ("\n      </div>\n    </div>\n  </section>".data)))
    ∧ (∀ (sid t tx : Str),
      containsUnsafeContent (jsonStringify (sectionToJson
        ⟨sid, "about".data, .jobj [("title".data, .jstr t),
          ("text".data, .jstr tx)]⟩)) = false →
      renderSection ⟨[], none⟩
        ⟨sid, "about".data, .jobj [("title".data, .jstr t), ("text".data, .jstr tx)]⟩
      = .ok (("\n  <section class=\"section about\">\n    <div class=\"container\">\n      <h2 class=\"section-title\">".data)
          ++ escapeHtml (escapeHtml t) ++ ("</h2>\n      <p>".data)
          ++ escapeHtml (escapeHtml tx)
          ++ ("</p>\n    </div>\n  </section>".data)))
    ∧ (∀ (sid t su : Str),
      containsUnsafeContent (jsonStringify (sectionToJson
        ⟨sid, "contact".data, .jobj [("title".data, .jstr t),
          ("subtitle".data, .jstr su)]⟩)) = false →
      renderSection ⟨[], none⟩
        ⟨sid, "contact".data, .jobj [("title".data, .jstr t),
          ("subtitle".data, .jstr su)]⟩
      = .ok (("\n  <section class=\"section contact\">\n    <div class=\"container\">\n      <h2 class=\"section-title\">".data)
          ++ escapeHtml (escapeHtml t)
          ++ ("</h2>\n      <p class=\"contact-subtitle\">".data)
          ++ escapeHtml (escapeHtml su)
          ++ ("</p>\n      <p style=\"color: #6c757d;\">Форма обратной связи будет добавлена после публикации.</p>\n    </div>\n  </section>".data)))
    ∧ (∀ (sid cp : Str),
      containsUnsafeContent (jsonStringify (sectionToJson
        ⟨sid, "footer".data, .jobj [("copyright".data, .jstr cp)]⟩)) = false →
      renderSection ⟨[], none⟩
        ⟨sid, "footer".data, .jobj [("copyright".data, .jstr cp)]⟩
      = .ok (("\n  <footer>\n    <div class=\"container\">\n      <p>".data)
          ++ escapeHtml (escapeHtml cp)
          ++ ("</p>\n    </div>\n  </footer>".data)))
    ∧ escapeHtml (escapeHtml ['&']) = ("&amp;amp;".data)
    ∧ escapeHtml (escapeHtml ['<']) = ("&amp;lt;".data)
    ∧ escapeHtml (escapeHtml ['>']) = ("&amp;gt;".data)
    ∧ escapeHtml (escapeHtml ['"']) = ("&amp;quot;".data)
    ∧ escapeHtml (escapeHtml ['\'']) = ("&amp;#039;".data) := by
  refine ⟨?_, ?_, ?_, ?_, ?_, by decide, by decide, by decide, by decide, by decide⟩
  · intro sid bn h s hsafe
    unfold renderSection sanitizeSection
    rw [hsafe]
    simp only [Bool.false_eq_true, if_false, Except.map]
    simp [renderHeroSection, getStrOr, lookupField, renderCta, ifEmptyElse,
      escapeHtmlInObject, escapeHtmlFields]
  · intro sid t it tx hsafe
    unfold renderSection sanitizeSection
    rw [hsafe]
    simp only [Bool.false_eq_true, if_false, Except.map]
    simp [renderFeaturesSection, renderFeatureItem, itemTextOrDescription, getStrOr,
      lookupField, ifEmptyElse, ifNotEmptyElseNil, escapeHtmlInObject, escapeHtmlFields,
      escapeHtmlList]
  · intro sid t tx hsafe
    unfold renderSection sanitizeSection
    rw [hsafe]
    simp only [Bool.false_eq_true, if_false, Except.map]
    simp [renderAboutSection, getStrOr, lookupField, ifEmptyElse, ifNotEmptyElseNil,
      escapeHtmlInObject, escapeHtmlFields]
  · intro sid t su hsafe
    unfold renderSection sanitizeSection
    rw [hsafe]
    simp only [Bool.false_eq_true, if_false, Except.map]
    simp [renderContactSection, getStrOr, lookupField, ifEmptyElse,
      escapeHtmlInObject, escapeHtmlFields]
  · intro sid cp hsafe
    unfold renderSection sanitizeSection
    rw [hsafe]
    simp only [Bool.false_eq_true, if_false, Except.map]
    simp [renderFooterSection, getStrOr, lookupField, ifEmptyElse,
      escapeHtmlInObject, escapeHtmlFields]

/-- C10 witness: the five builder equations applied at concrete benign
props (which pass the unsafe-content scan, discharged by decide). -/
theorem renderedSectionsDoubleEscape_witness :
    renderSection ⟨"b".data, none⟩
      ⟨"s1".data, "hero".data, .jobj [("headline".data, .jstr ("Hi & <you>".data)),
        ("subheadline".data, .jstr ("ok".data))]⟩
    = .ok (("\n  <section class=\"hero\">\n    <div class=\"container\">\n      ".data)
        ++ ("\n      <h1>".data) ++ escapeHtml (escapeHtml ("Hi & <you>".data))
        ++ ("</h1>\n      <p>".data) ++ escapeHtml (escapeHtml ("ok".data))
        ++ ("</p>\n      <div>\n        ".data) ++ ("\n        ".data)
        ++ ("\n      </div>\n    </div>\n  </section>".data))
    ∧ renderSection ⟨[], none⟩
      ⟨"s2".data, "features".data, .jobj [("title".data, .jstr ("T".data)),
        ("items".data, .jarr [.jobj [("title".data, .jstr ("A".data)),
          ("text".data, .jstr ("B".data))]])]⟩
    = .ok (("\n  <section class=\"section\">\n    <div class=\"container\">\n      <h2 class=\"section-title\">".data)
        ++ escapeHtml (escapeHtml ("T".data))
        ++ ("</h2>\n      <div class=\"features-grid\">\n        ".data)
        ++ (("\n        <div class=\"feature-card\">\n          <h3>".data)
            ++ escapeHtml (escapeHtml ("A".data))
            ++ ("</h3>\n          <p>".data)
            ++ escapeHtml (escapeHtml ("B".data))
            ++ ("</p>\n        </div>\n      ".data))
        ++ ("\n      </div>\n    </div>\n  </section>".data))
    ∧ renderSection ⟨[], none⟩
      ⟨"s3".data, "about".data, .jobj [("title".data, .jstr ("T".data)),
        ("text".data, .jstr ("X".data))]⟩
    = .ok (("\n  <section class=\"section about\">\n    <div class=\"container\">\n      <h2 class=\"section-title\">".data)
        ++ escapeHtml (escapeHtml ("T".data)) ++ ("</h2>\n      <p>".data)
        ++ escapeHtml (escapeHtml ("X".data))
        ++ ("</p>\n    </div>\n  </section>".data))
    ∧ renderSection ⟨[], none⟩
      ⟨"s4".data, "contact".data, .jobj [("title".data, .jstr ("T".data)),
        ("subtitle".data, .jstr ("S".data))]⟩
    = .ok (("\n  <section class=\"section contact\">\n    <div class=\"container\">\n      <h2 class=\"section-title\">".data)
        ++ escapeHtml (escapeHtml ("T".data))
        ++ ("</h2>\n      <p class=\"contact-subtitle\">".data)
        ++ escapeHtml (escapeHtml ("S".data))
        ++ ("</p>\n      <p style=\"color: #6c757d;\">Форма обратной связи будет добавлена после публикации.</p>\n    </div>\n  </section>".data))
    ∧ renderSection ⟨[], none⟩
      ⟨"s5".data, "footer".data, .jobj [("copyright".data, .jstr ("C".data))]⟩
    = .ok (("\n  <footer>\n    <div class=\"container\">\n      <p>".data)
        ++ escapeHtml (escapeHtml ("C".data))
        ++ ("</p>\n    </div>\n  </footer>".data)) :=
  ⟨renderedSectionsDoubleEscape.1 ("s1".data) ("b".data) ("Hi & <you>".data) ("ok".data)
      (by decide),
   renderedSectionsDoubleEscape.2.1 ("s2".data) ("T".data) ("A".data) ("B".data)
      (by decide),
   renderedSectionsDoubleEscape.2.2.1 ("s3".data) ("T".data) ("X".data) (by decide),
   renderedSectionsDoubleEscape.2.2.2.1 ("s4".data) ("T".data) ("S".data) (by decide),
   renderedSectionsDoubleEscape.2.2.2.2.1 ("s5".data) ("C".data) (by decide)⟩

theorem getSubstitution_no_dollar (m b a : Str) :
    ∀ (rep : Str), ('$' : Char) ∉ rep → getSubstitution m b a rep = rep := by
  intro rep
  induction rep with
  | nil => intro _; rfl
  | cons c rest ih =>
    intro hd
    have hc : ¬ c = '$' := by
      intro h
      exact hd (by rw [h]; exact List.mem_cons_self '$' rest)
    have hr : ('$' : Char) ∉ rest := fun h => hd (List.mem_cons_of_mem c h)
    rw [getSubstitution.eq_def]
    dsimp only
    rw [if_neg hc, ih hr]

theorem replaceAllFuel_irrel (pat rep : Str) :
    ∀ (f1 : Nat) (pre s : Str) (f2 : Nat), s.length ≤ f1 → s.length ≤ f2 →
      replaceAllFuel pat rep f1 pre s = replaceAllFuel pat rep f2 pre s := by
  intro f1
  induction f1 with
  | zero =>
    intro pre s f2 h1 h2
    have : s = [] := List.eq_nil_of_length_eq_zero (Nat.le_zero.mp h1)
    subst this
    cases f2 <;> rfl
  | succ g1 ih =>
    intro pre s f2 h1 h2
    cases s with
    | nil => cases f2 <;> rfl
    | cons c rest =>
      cases f2 with
      | zero => simp at h2
      | succ g2 =>
        simp only [replaceAllFuel]
        by_cases hc : pat ≠ [] ∧ startsWithL pat (c :: rest) = true
        · rw [if_pos hc, if_pos hc]
          have hp : 1 ≤ pat.length := by
            rcases hc with ⟨h', -⟩
            cases pat with
            | nil => simp at h'
            | cons a b => simp
          have hlen : ((c :: rest).drop pat.length).length ≤ g1 := by
            simp only [List.length_drop, List.length_cons]
            simp only [List.length_cons] at h1
            omega
          have hlen2 : ((c :: rest).drop pat.length).length ≤ g2 := by
            simp only [List.length_drop, List.length_cons]
            simp only [List.length_cons] at h2
            omega
          rw [ih (pat.reverse ++ pre) ((c :: rest).drop pat.length) g2 hlen hlen2]
        · rw [if_neg hc, if_neg hc]
          have hlen : rest.length ≤ g1 := by
            simp only [List.length_cons] at h1
            omega
          have hlen2 : rest.length ≤ g2 := by
            simp only [List.length_cons] at h2
            omega
          rw [ih (c :: pre) rest g2 hlen hlen2]

theorem replaceAllFuel_pre_irrel (pat rep : Str) (hd : ('$' : Char) ∉ rep) :
    ∀ (fuel : Nat) (pre1 pre2 s : Str),
      replaceAllFuel pat rep fuel pre1 s = replaceAllFuel pat rep fuel pre2 s := by
  intro fuel
  induction fuel with
  | zero => intro pre1 pre2 s; cases s <;> rfl
  | succ g ih =>
    intro pre1 pre2 s
    cases s with
    | nil => rfl
    | cons c rest =>
      simp only [replaceAllFuel]
      by_cases hc : pat ≠ [] ∧ startsWithL pat (c :: rest) = true
      · rw [if_pos hc, if_pos hc]
        rw [getSubstitution_no_dollar _ _ _ rep hd,
            getSubstitution_no_dollar _ _ _ rep hd]
        rw [ih (pat.reverse ++ pre1) (pat.reverse ++ pre2) ((c :: rest).drop pat.length)]
      · rw [if_neg hc, if_neg hc]
        rw [ih (c :: pre1) (c :: pre2) rest]
theorem startsWithL_self_append (pat v : Str) : startsWithL pat (pat ++ v) = true := by
  induction pat with
  | nil => rfl
  | cons p ps ih => simp [startsWithL, ih]
theorem replaceAll_match (pat rep v : Str) (h : pat ≠ []) (hd : ('$' : Char) ∉ rep) :
    replaceAll pat rep (pat ++ v) = rep ++ replaceAll pat rep v := by
  cases pat with
  | nil => simp at h
  | cons p ps =>
    show replaceAllFuel (p :: ps) rep ((p :: ps) ++ v).length [] ((p :: ps) ++ v) = _
    rw [List.cons_append]
    simp only [List.length_cons, List.length_append, replaceAllFuel]
    rw [if_pos ⟨h, by rw [← List.cons_append]; exact startsWithL_self_append (p :: ps) v⟩]
    have hdrop : List.drop (ps.length + 1) (p :: (ps ++ v)) = v := by
      simp only [List.drop_succ_cons]
      exact List.drop_left ps v
    rw [hdrop]
    rw [getSubstitution_no_dollar (p :: ps) _ _ rep hd]
    show rep ++ replaceAllFuel (p :: ps) rep (ps.length + v.length) ((p :: ps).reverse ++ []) v
      = rep ++ replaceAllFuel (p :: ps) rep v.length [] v
    rw [replaceAllFuel_pre_irrel (p :: ps) rep hd (ps.length + v.length)
      ((p :: ps).reverse ++ []) [] v]
    rw [replaceAllFuel_irrel (p :: ps) rep (ps.length + v.length) [] v v.length
      (by omega) (Nat.le_refl _)]
theorem replaceAll_push (p : Char) (ps rep : Str) (hd : ('$' : Char) ∉ rep) :
    ∀ (u v : Str), p ∉ u →
      replaceAll (p :: ps) rep (u ++ v) = u ++ replaceAll (p :: ps) rep v := by
  intro u
  induction u with
  | nil =>
    intro v _
    simp
  | cons c u' ih =>
    intro v hu
    have hpc : p ≠ c := fun e => hu (e ▸ List.mem_cons_self c u')
    show replaceAllFuel (p :: ps) rep ((c :: u') ++ v).length [] ((c :: u') ++ v) = _
    rw [List.cons_append]
    simp only [List.length_cons, replaceAllFuel]
    rw [if_neg (by
      intro hcon
      rcases hcon with ⟨-, hsw⟩
      simp only [startsWithL, Bool.and_eq_true, beq_iff_eq] at hsw
      exact hpc hsw.1)]
    rw [replaceAllFuel_pre_irrel (p :: ps) rep hd (u' ++ v).length (c :: []) [] (u' ++ v)]
    have := ih v (fun hm => hu (List.mem_cons_of_mem c hm))
    show c :: replaceAllFuel (p :: ps) rep (u' ++ v).length [] (u' ++ v) = c :: (u' ++ _)
    rw [← this]
    rfl
theorem hasInfixL_cons_false (pat : Str) (c : Char) (rest : Str)
    (h : hasInfixL pat (c :: rest) = false) :
    startsWithL pat (c :: rest) = false ∧ hasInfixL pat rest = false := by
  simp only [hasInfixL, Bool.or_eq_false_iff] at h
  exact h
theorem replaceAllFuel_no_match (pat rep : Str) :
    ∀ (s pre : Str), hasInfixL pat s = false →
      replaceAllFuel pat rep s.length pre s = s := by
  intro s
  induction s with
  | nil => intro pre _; rfl
  | cons c rest ih =>
    intro pre h
    rcases hasInfixL_cons_false pat c rest h with ⟨h1, h2⟩
    simp only [List.length_cons, replaceAllFuel]
    rw [if_neg (by
      intro hcon
      rcases hcon with ⟨-, hsw⟩
      rw [h1] at hsw
      exact Bool.false_ne_true hsw)]
    exact congrArg (fun t => c :: t) (ih (c :: pre) h2)
theorem replaceAll_no_match (pat rep : Str) :
    ∀ (s : Str), hasInfixL pat s = false → replaceAll pat rep s = s := by
  intro s
  exact replaceAllFuel_no_match pat rep s []
theorem startsWithL_mem (pat : Str) : ∀ (s : Str), startsWithL pat s = true → ∀ a ∈ pat, a ∈ s := by
  induction pat with
  | nil => intro s _ a ha; simp at ha
  | cons p ps ih =>
    intro s h a ha
    cases s with
    | nil => simp [startsWithL] at h
    | cons c cs =>
      simp only [startsWithL, Bool.and_eq_true, beq_iff_eq] at h
      rcases List.mem_cons.mp ha with he | hm
      · exact he ▸ h.1 ▸ List.mem_cons_self c cs
      · exact List.mem_cons_of_mem c (ih cs h.2 a hm)
theorem hasInfixL_mem (pat : Str) : ∀ (s : Str), hasInfixL pat s = true → ∀ a ∈ pat, a ∈ s := by
  intro s
  induction s with
  | nil =>
    intro h a ha
    cases pat with
    | nil => simp at ha
    | cons p ps => simp [hasInfixL] at h
  | cons c cs ih =>
    intro h a ha
    simp only [hasInfixL, Bool.or_eq_true] at h
    rcases h with h | h
    · exact startsWithL_mem pat (c :: cs) h a ha
    · exact List.mem_cons_of_mem c (ih h a ha)
theorem hasInfixL_false_of_notMem (pat s : Str) (a : Char) (hpat : a ∈ pat) (hs : a ∉ s) :
    hasInfixL pat s = false := by
  cases hh : hasInfixL pat s with
  | false => rfl
  | true => exact absurd (hasInfixL_mem pat s hh a hpat) hs
theorem replaceAll_id_of_noBrace (pat rep s : Str) (hpat : ('{' : Char) ∈ pat)
    (hs : ('{' : Char) ∉ s) : replaceAll pat rep s = s :=
  replaceAll_no_match pat rep s (hasInfixL_false_of_notMem pat s '{' hpat hs)
theorem noMatchTokBrand (rep s : Str) (hs : ('{' : Char) ∉ s) :
    replaceAll ("\x7b\x7bbrandName\x7d\x7d".data) rep s = s :=
  replaceAll_id_of_noBrace _ _ _ (by decide) hs
theorem jsTrim_subset (s : Str) : ∀ a ∈ jsTrim s, a ∈ s := by
  intro a ha
  unfold jsTrim at ha
  rw [List.mem_reverse] at ha
  have h2 := (List.dropWhile_sublist (fun c => jsWs c)).subset ha
  rw [List.mem_reverse] at h2
  exact (List.dropWhile_sublist (fun c => jsWs c)).subset h2
theorem collapseWsAux_mem : ∀ (s : Str) (b : Bool) (a : Char),
    a ∈ collapseWsAux b s → a ∈ s ∨ a = ' ' := by
  intro s
  induction s with
  | nil => intro b a ha; simp [collapseWsAux] at ha
  | cons c rest ih =>
    intro b a ha
    unfold collapseWsAux at ha
    by_cases hc : jsWs c
    · rw [if_pos hc] at ha
      cases b with
      | true =>
        rcases ih true a ha with h | h
        · exact Or.inl (List.mem_cons_of_mem c h)
        · exact Or.inr h
      | false =>
        rcases List.mem_cons.mp ha with he | hm
        · exact Or.inr he
        · rcases ih true a hm with h | h
          · exact Or.inl (List.mem_cons_of_mem c h)
          · exact Or.inr h
    · rw [if_neg hc] at ha
      rcases List.mem_cons.mp ha with he | hm
      · exact Or.inl (he ▸ List.mem_cons_self c rest)
      · rcases ih false a hm with h | h
        · exact Or.inl (List.mem_cons_of_mem c h)
        · exact Or.inr h
theorem normalizeBrandName_noBrace (s : Str) (h : ('{' : Char) ∉ s) :
    ('{' : Char) ∉ normalizeBrandName s := by
  intro hm
  unfold normalizeBrandName at hm
  have h1 := List.take_subset 100 _ hm
  unfold collapseWs at h1
  rcases collapseWsAux_mem _ false '{' h1 with h2 | h2
  · have h3 := List.mem_of_mem_filter h2
    exact h (jsTrim_subset s '{' h3)
  · simp at h2
theorem normalizeBrandName_noDollar (s : Str) (h : ('$' : Char) ∉ s) :
    ('$' : Char) ∉ normalizeBrandName s := by
  intro hm
  unfold normalizeBrandName at hm
  have h1 := List.take_subset 100 _ hm
  unfold collapseWs at h1
  rcases collapseWsAux_mem _ false '$' h1 with h2 | h2
  · have h3 := List.mem_of_mem_filter h2
    exact h (jsTrim_subset s '$' h3)
  · simp at h2
theorem slugRunsAux_mem : ∀ (s : Str) (b : Bool) (a : Char),
    a ∈ slugRunsAux b s → isSlugChar a = true ∨ a = '-' := by
  intro s
  induction s with
  | nil => intro b a ha; simp [slugRunsAux] at ha
  | cons c rest ih =>
    intro b a ha
    unfold slugRunsAux at ha
    by_cases hc : isSlugChar c
    · rw [if_pos hc] at ha
      rcases List.mem_cons.mp ha with he | hm
      · exact Or.inl (he ▸ hc)
      · exact ih false a hm
    · rw [if_neg hc] at ha
      cases b with
      | true =>
        rw [if_pos rfl] at ha
        exact ih true a ha
      | false =>
        rw [if_neg (by simp)] at ha
        rcases List.mem_cons.mp ha with he | hm
        · exact Or.inr he
        · exact ih true a hm
theorem generateSlug_noBrace (s : Str) : ('{' : Char) ∉ generateSlug s := by
  intro hm
  unfold generateSlug at hm
  dsimp only at hm
  split at hm
  · simp at hm
  · have h1 := List.take_subset 50 _ hm
    rw [List.mem_reverse] at h1
    have h2 := (List.dropWhile_sublist (fun c => c == '-')).subset h1
    rw [List.mem_reverse] at h2
    have h3 := (List.dropWhile_sublist (fun c => c == '-')).subset h2
    unfold slugRuns at h3
    rcases slugRunsAux_mem _ false '{' h3 with h4 | h4
    · simp [isSlugChar] at h4
    · simp at h4
theorem noBrace_append (u v : Str) (hu : ('{' : Char) ∉ u) (hv : ('{' : Char) ∉ v) :
    ('{' : Char) ∉ u ++ v := by
  intro hm
  rcases List.mem_append.mp hm with h | h
  · exact hu h
  · exact hv h
theorem strTokenFree_of_noBrace (s : Str) (h : ('{' : Char) ∉ s) :
    strTokenFree s = true := by
  unfold strTokenFree TOKEN_LIST
  simp only [List.all_cons, List.all_nil, Bool.and_eq_true, Bool.not_eq_true',
    Bool.and_true]
  refine ⟨?_, ?_, ?_, ?_, ?_⟩ <;>
    exact hasInfixL_false_of_notMem _ s '{' (by decide) h
theorem resolveTokens_id_of_noBrace (s : Str) (ctx : TokenContext)
    (hs : ('{' : Char) ∉ s) : resolveTokens s ctx = s := by
  unfold resolveTokens
  rw [replaceAll_id_of_noBrace _ _ s (by decide) hs,
      replaceAll_id_of_noBrace _ _ s (by decide) hs,
      replaceAll_id_of_noBrace _ _ s (by decide) hs,
      replaceAll_id_of_noBrace _ _ s (by decide) hs]
theorem pushTokBrand (rep u v : Str) (hu : ('{' : Char) ∉ u) (hd : ('$' : Char) ∉ rep) :
    replaceAll ("\x7b\x7bbrandName\x7d\x7d".data) rep (u ++ v)
    = u ++ replaceAll ("\x7b\x7bbrandName\x7d\x7d".data) rep v := by
  rw [(by decide : ("\x7b\x7bbrandName\x7d\x7d".data) = '{' :: ("\x7bbrandName\x7d\x7d".data))]
  exact replaceAll_push '{' _ rep hd u v hu
theorem pushTokInd (rep u v : Str) (hu : ('{' : Char) ∉ u) (hd : ('$' : Char) ∉ rep) :
    replaceAll ("\x7b\x7bindustryLabel\x7d\x7d".data) rep (u ++ v)
    = u ++ replaceAll ("\x7b\x7bindustryLabel\x7d\x7d".data) rep v := by
  rw [(by decide : ("\x7b\x7bindustryLabel\x7d\x7d".data) = '{' :: ("\x7bindustryLabel\x7d\x7d".data))]
  exact replaceAll_push '{' _ rep hd u v hu
theorem matchTokBrand (rep v : Str) (hd : ('$' : Char) ∉ rep) :
    replaceAll ("\x7b\x7bbrandName\x7d\x7d".data) rep (("\x7b\x7bbrandName\x7d\x7d".data) ++ v)
    = rep ++ replaceAll ("\x7b\x7bbrandName\x7d\x7d".data) rep v :=
  replaceAll_match _ _ _ (by decide) hd
theorem matchTokInd (rep v : Str) (hd : ('$' : Char) ∉ rep) :
    replaceAll ("\x7b\x7bindustryLabel\x7d\x7d".data) rep
      (("\x7b\x7bindustryLabel\x7d\x7d".data) ++ v)
    = rep ++ replaceAll ("\x7b\x7bindustryLabel\x7d\x7d".data) rep v :=
  replaceAll_match _ _ _ (by decide) hd
theorem rt_it_headline (ctx : TokenContext) (hb : ('{' : Char) ∉ ctx.brandName)
    (hbD : ('$' : Char) ∉ ctx.brandName) :
    resolveTokens ("\x7b\x7bbrandName\x7d\x7d — IT-услуги для роста бизнеса".data) ctx
    = ctx.brandName ++ (" — IT-услуги для роста бизнеса".data) := by
  unfold resolveTokens
  rw [(by decide : ("\x7b\x7bbrandName\x7d\x7d — IT-услуги для роста бизнеса".data)
      = ("\x7b\x7bbrandName\x7d\x7d".data) ++ (" — IT-услуги для роста бизнеса".data))]
  rw [matchTokBrand ctx.brandName _ hbD]
  rw [replaceAll_id_of_noBrace ("\x7b\x7bbrandName\x7d\x7d".data) ctx.brandName
      (" — IT-услуги для роста бизнеса".data) (by decide) (by decide)]
  rw [replaceAll_id_of_noBrace ("\x7b\x7bindustryLabel\x7d\x7d".data) ctx.industryLabel
      (ctx.brandName ++ (" — IT-услуги для роста бизнеса".data)) (by decide)
      (noBrace_append _ _ hb (by decide))]
  rw [replaceAll_id_of_noBrace ("\x7b\x7blogoUrl\x7d\x7d".data) (ctx.logoUrl.getD [])
      (ctx.brandName ++ (" — IT-услуги для роста бизнеса".data)) (by decide)
      (noBrace_append _ _ hb (by decide))]
  rw [replaceAll_id_of_noBrace ("\x7b\x7bslug\x7d\x7d".data) ctx.slug
      (ctx.brandName ++ (" — IT-услуги для роста бизнеса".data)) (by decide)
      (noBrace_append _ _ hb (by decide))]
theorem rt_it_aboutText (ctx : TokenContext) (hb : ('{' : Char) ∉ ctx.brandName)
    (hi : ('{' : Char) ∉ ctx.industryLabel) (hbD : ('$' : Char) ∉ ctx.brandName)
    (hiD : ('$' : Char) ∉ ctx.industryLabel) :
    resolveTokens ("Мы — \x7b\x7bbrandName\x7d\x7d, команда профессионалов в сфере \x7b\x7bindustryLabel\x7d\x7d. Помогаем бизнесу расти через качественные цифровые решения.".data) ctx
    = ("Мы — ".data) ++ (ctx.brandName ++ ((", команда профессионалов в сфере ".data)
        ++ (ctx.industryLabel ++ (". Помогаем бизнесу расти через качественные цифровые решения.".data)))) := by
  unfold resolveTokens
  rw [(by decide : ("Мы — \x7b\x7bbrandName\x7d\x7d, команда профессионалов в сфере \x7b\x7bindustryLabel\x7d\x7d. Помогаем бизнесу расти через качественные цифровые решения.".data)
      = ("Мы — ".data) ++ (("\x7b\x7bbrandName\x7d\x7d".data) ++ ((", команда профессионалов в сфере ".data)
        ++ (("\x7b\x7bindustryLabel\x7d\x7d".data) ++ (". Помогаем бизнесу расти через качественные цифровые решения.".data)))))]
  rw [pushTokBrand ctx.brandName ("Мы — ".data) _ (by decide) hbD]
  rw [matchTokBrand ctx.brandName _ hbD]
  rw [replaceAll_no_match ("\x7b\x7bbrandName\x7d\x7d".data) ctx.brandName
      ((", команда профессионалов в сфере ".data)
        ++ (("\x7b\x7bindustryLabel\x7d\x7d".data) ++ (". Помогаем бизнесу расти через качественные цифровые решения.".data))) (by decide)]
  rw [pushTokInd ctx.industryLabel ("Мы — ".data) _ (by decide) hiD]
  rw [pushTokInd ctx.industryLabel ctx.brandName _ hb hiD]
  rw [pushTokInd ctx.industryLabel (", команда профессионалов в сфере ".data) _ (by decide) hiD]
  rw [matchTokInd ctx.industryLabel (". Помогаем бизнесу расти через качественные цифровые решения.".data) hiD]
  rw [replaceAll_id_of_noBrace ("\x7b\x7bindustryLabel\x7d\x7d".data) ctx.industryLabel
      (". Помогаем бизнесу расти через качественные цифровые решения.".data) (by decide) (by decide)]
  rw [replaceAll_id_of_noBrace ("\x7b\x7blogoUrl\x7d\x7d".data) (ctx.logoUrl.getD [])
      (("Мы — ".data) ++ (ctx.brandName ++ ((", команда профессионалов в сфере ".data)
        ++ (ctx.industryLabel ++ (". Помогаем бизнесу расти через качественные цифровые решения.".data)))))
      (by decide)
      (noBrace_append _ _ (by decide) (noBrace_append _ _ hb (noBrace_append _ _ (by decide)
        (noBrace_append _ _ hi (by decide)))))]
  rw [replaceAll_id_of_noBrace ("\x7b\x7bslug\x7d\x7d".data) ctx.slug
      (("Мы — ".data) ++ (ctx.brandName ++ ((", команда профессионалов в сфере ".data)
        ++ (ctx.industryLabel ++ (". Помогаем бизнесу расти через качественные цифровые решения.".data)))))
      (by decide)
      (noBrace_append _ _ (by decide) (noBrace_append _ _ hb (noBrace_append _ _ (by decide)
        (noBrace_append _ _ hi (by decide)))))]
theorem replaceAll_nil (pat rep : Str) : replaceAll pat rep ([] : Str) = ([] : Str) := rfl
theorem rt_def_headline (ctx : TokenContext) (hb : ('{' : Char) ∉ ctx.brandName)
    (hbD : ('$' : Char) ∉ ctx.brandName) :
    resolveTokens ("Добро пожаловать в \x7b\x7bbrandName\x7d\x7d".data) ctx
    = ("Добро пожаловать в ".data) ++ ctx.brandName := by
  unfold resolveTokens
  rw [(by decide : ("Добро пожаловать в \x7b\x7bbrandName\x7d\x7d".data)
      = ("Добро пожаловать в ".data) ++ (("\x7b\x7bbrandName\x7d\x7d".data) ++ ([] : Str)))]
  rw [pushTokBrand ctx.brandName ("Добро пожаловать в ".data) _ (by decide) hbD]
  rw [matchTokBrand ctx.brandName _ hbD]
  rw [replaceAll_nil]
  rw [List.append_nil]
  rw [replaceAll_id_of_noBrace ("\x7b\x7bindustryLabel\x7d\x7d".data) ctx.industryLabel
      (("Добро пожаловать в ".data) ++ ctx.brandName) (by decide)
      (noBrace_append _ _ (by decide) hb)]
  rw [replaceAll_id_of_noBrace ("\x7b\x7blogoUrl\x7d\x7d".data) (ctx.logoUrl.getD [])
      (("Добро пожаловать в ".data) ++ ctx.brandName) (by decide)
      (noBrace_append _ _ (by decide) hb)]
  rw [replaceAll_id_of_noBrace ("\x7b\x7bslug\x7d\x7d".data) ctx.slug
      (("Добро пожаловать в ".data) ++ ctx.brandName) (by decide)
      (noBrace_append _ _ (by decide) hb)]
theorem rt_def_aboutTitle (ctx : TokenContext) (hb : ('{' : Char) ∉ ctx.brandName)
    (hbD : ('$' : Char) ∉ ctx.brandName) :
    resolveTokens ("О компании \x7b\x7bbrandName\x7d\x7d".data) ctx
    = ("О компании ".data) ++ ctx.brandName := by
  unfold resolveTokens
  rw [(by decide : ("О компании \x7b\x7bbrandName\x7d\x7d".data)
      = ("О компании ".data) ++ (("\x7b\x7bbrandName\x7d\x7d".data) ++ ([] : Str)))]
  rw [pushTokBrand ctx.brandName ("О компании ".data) _ (by decide) hbD]
  rw [matchTokBrand ctx.brandName _ hbD]
  rw [replaceAll_nil]
  rw [List.append_nil]
  rw [replaceAll_id_of_noBrace ("\x7b\x7bindustryLabel\x7d\x7d".data) ctx.industryLabel
      (("О компании ".data) ++ ctx.brandName) (by decide)
      (noBrace_append _ _ (by decide) hb)]
  rw [replaceAll_id_of_noBrace ("\x7b\x7blogoUrl\x7d\x7d".data) (ctx.logoUrl.getD [])
      (("О компании ".data) ++ ctx.brandName) (by decide)
      (noBrace_append _ _ (by decide) hb)]
  rw [replaceAll_id_of_noBrace ("\x7b\x7bslug\x7d\x7d".data) ctx.slug
      (("О компании ".data) ++ ctx.brandName) (by decide)
      (noBrace_append _ _ (by decide) hb)]
theorem rt_def_aboutText (ctx : TokenContext)
    (hi : ('{' : Char) ∉ ctx.industryLabel) (hiD : ('$' : Char) ∉ ctx.industryLabel) :
    resolveTokens ("Мы предоставляем качественный сервис с профессионализмом и опытом в сфере \x7b\x7bindustryLabel\x7d\x7d.".data) ctx
    = ("Мы предоставляем качественный сервис с профессионализмом и опытом в сфере ".data)
      ++ (ctx.industryLabel ++ (".".data)) := by
  unfold resolveTokens
  rw [replaceAll_no_match ("\x7b\x7bbrandName\x7d\x7d".data) ctx.brandName
      ("Мы предоставляем качественный сервис с профессионализмом и опытом в сфере \x7b\x7bindustryLabel\x7d\x7d.".data) (by decide)]
  rw [(by decide : ("Мы предоставляем качественный сервис с профессионализмом и опытом в сфере \x7b\x7bindustryLabel\x7d\x7d.".data)
      = ("Мы предоставляем качественный сервис с профессионализмом и опытом в сфере ".data)
        ++ (("\x7b\x7bindustryLabel\x7d\x7d".data) ++ (".".data)))]
  rw [pushTokInd ctx.industryLabel ("Мы предоставляем качественный сервис с профессионализмом и опытом в сфере ".data) _ (by decide) hiD]
  rw [matchTokInd ctx.industryLabel (".".data) hiD]
  rw [replaceAll_id_of_noBrace ("\x7b\x7bindustryLabel\x7d\x7d".data) ctx.industryLabel
      (".".data) (by decide) (by decide)]
  rw [replaceAll_id_of_noBrace ("\x7b\x7blogoUrl\x7d\x7d".data) (ctx.logoUrl.getD [])
      (("Мы предоставляем качественный сервис с профессионализмом и опытом в сфере ".data)
        ++ (ctx.industryLabel ++ (".".data))) (by decide)
      (noBrace_append _ _ (by decide) (noBrace_append _ _ hi (by decide)))]
  rw [replaceAll_id_of_noBrace ("\x7b\x7bslug\x7d\x7d".data) ctx.slug
      (("Мы предоставляем качественный сервис с профессионализмом и опытом в сфере ".data)
        ++ (ctx.industryLabel ++ (".".data))) (by decide)
      (noBrace_append _ _ (by decide) (noBrace_append _ _ hi (by decide)))]
theorem rt_tokLogoAsset (ctx : TokenContext) :
    resolveTokens ("\x7b\x7blogoAssetId\x7d\x7d".data) ctx = ("\x7b\x7blogoAssetId\x7d\x7d".data) := by
  unfold resolveTokens
  rw [replaceAll_no_match ("\x7b\x7bbrandName\x7d\x7d".data) ctx.brandName ("\x7b\x7blogoAssetId\x7d\x7d".data) (by decide)]
  rw [replaceAll_no_match ("\x7b\x7bindustryLabel\x7d\x7d".data) ctx.industryLabel ("\x7b\x7blogoAssetId\x7d\x7d".data) (by decide)]
  rw [replaceAll_no_match ("\x7b\x7blogoUrl\x7d\x7d".data) (ctx.logoUrl.getD []) ("\x7b\x7blogoAssetId\x7d\x7d".data) (by decide)]
  rw [replaceAll_no_match ("\x7b\x7bslug\x7d\x7d".data) ctx.slug ("\x7b\x7blogoAssetId\x7d\x7d".data) (by decide)]

theorem load_cases (tid : Str) :
    TemplateLoader.load tid = ITServicesTemplate ∨ TemplateLoader.load tid = DefaultTemplate := by
  unfold TemplateLoader.load TEMPLATES
  by_cases h1 : (((("it_services".data, ITServicesTemplate) : Str × Template)).1 == tid) = true
  · left
    rw [@List.find?_cons_of_pos (Str × Template) (fun p => p.1 == tid)
        ("it_services".data, ITServicesTemplate) [("default".data, DefaultTemplate)] h1]
    rfl
  · by_cases h2 : (((("default".data, DefaultTemplate) : Str × Template)).1 == tid) = true
    · right
      rw [@List.find?_cons_of_neg (Str × Template) (fun p => p.1 == tid)
          ("it_services".data, ITServicesTemplate) [("default".data, DefaultTemplate)] h1,
        @List.find?_cons_of_pos (Str × Template) (fun p => p.1 == tid)
          ("default".data, DefaultTemplate) [] h2]
      rfl
    · right
      rw [@List.find?_cons_of_neg (Str × Template) (fun p => p.1 == tid)
          ("it_services".data, ITServicesTemplate) [("default".data, DefaultTemplate)] h1,
        @List.find?_cons_of_neg (Str × Template) (fun p => p.1 == tid)
          ("default".data, DefaultTemplate) [] h2]
      rfl

theorem pagesTokenFree_of_noBraceStrings (ps : List Page)
    (h : ∀ s ∈ ps.flatMap pageStrings, ('{' : Char) ∉ s) :
    pagesTokenFree ps = true := by
  unfold pagesTokenFree
  rw [List.all_eq_true]
  intro s hs
  exact strTokenFree_of_noBrace s (h s hs)
theorem itPagesResolved (ctx : TokenContext) (logo : Option AssetInfoM)
    (hb : ('{' : Char) ∉ ctx.brandName) (hi : ('{' : Char) ∉ ctx.industryLabel)
    (hbD : ('$' : Char) ∉ ctx.brandName) (hiD : ('$' : Char) ∉ ctx.industryLabel) :
    generatePages ITServicesTemplate ctx logo = [
      { id := "home".data
        path := "/".data
        title := "Главная".data
        sections := [
          { id := "hero_1".data
            type := "hero".data
            props := .jobj [
              ("headline".data, .jstr (ctx.brandName ++ (" — IT-услуги для роста бизнеса".data))),
              ("subheadline".data, .jstr ("Сайты, дизайн и разработка под ключ. Быстрый старт, понятный процесс.".data)),
              ("primaryCta".data, .jobj [
                ("text".data, .jstr ("Получить консультацию".data)),
                ("href".data, .jstr ("#contact".data))]),
              ("secondaryCta".data, .jobj [
                ("text".data, .jstr ("Посмотреть кейсы".data)),
                ("href".data, .jstr ("#cases".data))]),
              ("logoAssetId".data, logoAssetIdValue logo)] }
          , { id := "services_1".data
              type := "features".data
              props := .jobj [
                ("title".data, .jstr ("Что мы делаем".data)),
                ("items".data, .jarr [
                  .jobj [("title".data, .jstr ("Сайты".data)),
                         ("text".data, .jstr ("Лендинги, корпоративные, магазины.".data))],
                  .jobj [("title".data, .jstr ("Дизайн".data)),
                         ("text".data, .jstr ("Логотипы, обложки, UI/UX.".data))],
                  .jobj [("title".data, .jstr ("Поддержка".data)),
                         ("text".data, .jstr ("Сопровождение и доработки.".data))]])] }
          , { id := "about_1".data
              type := "about".data
              props := .jobj [
                ("title".data, .jstr ("О нас".data)),
                ("text".data, .jstr (("Мы — ".data) ++ (ctx.brandName ++ ((", команда профессионалов в сфере ".data)
                  ++ (ctx.industryLabel ++ (". Помогаем бизнесу расти через качественные цифровые решения.".data))))))] }
          , { id := "contact_1".data
              type := "contact".data
              props := .jobj [
                ("title".data, .jstr ("Связаться с нами".data)),
                ("subtitle".data, .jstr ("Оставьте заявку — мы ответим в течение дня.".data)),
                ("fields".data, .jarr [.jstr ("name".data), .jstr ("phone".data), .jstr ("message".data)])] }
        ] }
    ] := by
  dsimp only [generatePages, ITServicesTemplate, List.map]
  simp only [resolveSectionProps, resolveFields, resolveFieldValue, resolveItems]
  rw [rt_it_headline ctx hb hbD, rt_it_aboutText ctx hb hi hbD hiD, rt_tokLogoAsset ctx]
  rw [resolveTokens_id_of_noBrace ("Главная".data) ctx (by decide)]
  rw [resolveTokens_id_of_noBrace ("Сайты, дизайн и разработка под ключ. Быстрый старт, понятный процесс.".data) ctx (by decide)]
  rw [resolveTokens_id_of_noBrace ("Получить консультацию".data) ctx (by decide)]
  rw [resolveTokens_id_of_noBrace ("#contact".data) ctx (by decide)]
  rw [resolveTokens_id_of_noBrace ("Посмотреть кейсы".data) ctx (by decide)]
  rw [resolveTokens_id_of_noBrace ("#cases".data) ctx (by decide)]
  rw [resolveTokens_id_of_noBrace ("Что мы делаем".data) ctx (by decide)]
  rw [resolveTokens_id_of_noBrace ("Сайты".data) ctx (by decide)]
  rw [resolveTokens_id_of_noBrace ("Лендинги, корпоративные, магазины.".data) ctx (by decide)]
  rw [resolveTokens_id_of_noBrace ("Дизайн".data) ctx (by decide)]
  rw [resolveTokens_id_of_noBrace ("Логотипы, обложки, UI/UX.".data) ctx (by decide)]
  rw [resolveTokens_id_of_noBrace ("Поддержка".data) ctx (by decide)]
  rw [resolveTokens_id_of_noBrace ("Сопровождение и доработки.".data) ctx (by decide)]
  rw [resolveTokens_id_of_noBrace ("О нас".data) ctx (by decide)]
  rw [resolveTokens_id_of_noBrace ("Связаться с нами".data) ctx (by decide)]
  rw [resolveTokens_id_of_noBrace ("Оставьте заявку — мы ответим в течение дня.".data) ctx (by decide)]
  rfl
theorem defPagesResolved (ctx : TokenContext) (logo : Option AssetInfoM)
    (hb : ('{' : Char) ∉ ctx.brandName) (hi : ('{' : Char) ∉ ctx.industryLabel)
    (hbD : ('$' : Char) ∉ ctx.brandName) (hiD : ('$' : Char) ∉ ctx.industryLabel) :
    generatePages DefaultTemplate ctx logo = [
      { id := "home".data
        path := "/".data
        title := "Главная".data
        sections := [
          { id := "hero_1".data
            type := "hero".data
            props := .jobj [
              ("headline".data, .jstr (("Добро пожаловать в ".data) ++ ctx.brandName)),
              ("subheadline".data, .jstr ("Профессиональные услуги, которым можно доверять.".data)),
              ("primaryCta".data, .jobj [
                ("text".data, .jstr ("Узнать больше".data)),
                ("href".data, .jstr ("#about".data))]),
              ("logoAssetId".data, logoAssetIdValue logo)] }
          , { id := "services_1".data
              type := "features".data
              props := .jobj [
                ("title".data, .jstr ("Наши услуги".data)),
                ("items".data, .jarr [
                  .jobj [("title".data, .jstr ("Профессиональный сервис".data)),
                         ("text".data, .jstr ("Экспертные решения для ваших задач.".data))],
                  .jobj [("title".data, .jstr ("Клиентская поддержка".data)),
                         ("text".data, .jstr ("Профессиональная поддержка когда вам нужно.".data))],
                  .jobj [("title".data, .jstr ("Гарантия качества".data)),
                         ("text".data, .jstr ("Стремление к совершенству во всем.".data))]])] }
          , { id := "about_1".data
              type := "about".data
              props := .jobj [
                ("title".data, .jstr (("О компании ".data) ++ ctx.brandName)),
                ("text".data, .jstr (("Мы предоставляем качественный сервис с профессионализмом и опытом в сфере ".data)
                  ++ (ctx.industryLabel ++ (".".data))))] }
          , { id := "contact_1".data
              type := "contact".data
              props := .jobj [
                ("title".data, .jstr ("Свяжитесь с нами".data)),
                ("subtitle".data, .jstr ("Мы будем рады ответить на ваши вопросы.".data)),
                ("fields".data, .jarr [.jstr ("name".data), .jstr ("email".data), .jstr ("message".data)])] }
        ] }
    ] := by
  dsimp only [generatePages, DefaultTemplate, List.map]
  simp only [resolveSectionProps, resolveFields, resolveFieldValue, resolveItems]
  rw [rt_def_headline ctx hb hbD, rt_def_aboutTitle ctx hb hbD, rt_def_aboutText ctx hi hiD, rt_tokLogoAsset ctx]
  rw [resolveTokens_id_of_noBrace ("Главная".data) ctx (by decide)]
  rw [resolveTokens_id_of_noBrace ("Профессиональные услуги, которым можно доверять.".data) ctx (by decide)]
  rw [resolveTokens_id_of_noBrace ("Узнать больше".data) ctx (by decide)]
  rw [resolveTokens_id_of_noBrace ("#about".data) ctx (by decide)]
  rw [resolveTokens_id_of_noBrace ("Наши услуги".data) ctx (by decide)]
  rw [resolveTokens_id_of_noBrace ("Профессиональный сервис".data) ctx (by decide)]
  rw [resolveTokens_id_of_noBrace ("Экспертные решения для ваших задач.".data) ctx (by decide)]
  rw [resolveTokens_id_of_noBrace ("Клиентская поддержка".data) ctx (by decide)]
  rw [resolveTokens_id_of_noBrace ("Профессиональная поддержка когда вам нужно.".data) ctx (by decide)]
  rw [resolveTokens_id_of_noBrace ("Гарантия качества".data) ctx (by decide)]
  rw [resolveTokens_id_of_noBrace ("Стремление к совершенству во всем.".data) ctx (by decide)]
  rw [resolveTokens_id_of_noBrace ("Свяжитесь с нами".data) ctx (by decide)]
  rw [resolveTokens_id_of_noBrace ("Мы будем рады ответить на ваши вопросы.".data) ctx (by decide)]
  rfl
theorem noBrace_cons (c : Char) (s : Str) (hc : ('{' : Char) ≠ c)
    (hs : ('{' : Char) ∉ s) : ('{' : Char) ∉ c :: s := by
  intro h
  rcases List.mem_cons.mp h with h | h
  · exact hc h
  · exact hs h

theorem itPagesTF (ctx : TokenContext) (logo : Option AssetInfoM)
    (hb : ('{' : Char) ∉ ctx.brandName) (hi : ('{' : Char) ∉ ctx.industryLabel)
    (hbD : ('$' : Char) ∉ ctx.brandName) (hiD : ('$' : Char) ∉ ctx.industryLabel)
    (ha : ∀ l, logo = some l → ('{' : Char) ∉ l.assetId) :
    pagesTokenFree (generatePages ITServicesTemplate ctx logo) = true ∧
    ∀ p ∈ generatePages ITServicesTemplate ctx logo, ∀ sec ∈ p.sections,
      sectionLogoAssetId sec = none ∨ sectionLogoAssetId sec = some (logoAssetIdValue logo) := by
  rw [itPagesResolved ctx logo hb hi hbD hiD]
  constructor
  · rcases logo with _ | l
    · simp only [pagesTokenFree, pageStrings, List.flatMap_cons, List.flatMap_nil,
        collectStrings, collectStringsList, collectStringsFields, logoAssetIdValue,
        List.append_nil, List.nil_append, List.cons_append, List.all_cons, List.all_nil,
        List.all_append, Bool.and_eq_true, Bool.and_true, Bool.true_and]
      repeat' apply And.intro
      all_goals apply strTokenFree_of_noBrace
      all_goals repeat' first | apply noBrace_append | apply noBrace_cons
      all_goals first | exact hb | exact hi | decide
    · have hA : ('{' : Char) ∉ l.assetId := ha l rfl
      by_cases hE : l.assetId = []
      · simp only [pagesTokenFree, pageStrings, List.flatMap_cons, List.flatMap_nil,
          collectStrings, collectStringsList, collectStringsFields, logoAssetIdValue,
          if_pos hE,
          List.append_nil, List.nil_append, List.cons_append, List.all_cons, List.all_nil,
          List.all_append, Bool.and_eq_true, Bool.and_true, Bool.true_and]
        repeat' apply And.intro
        all_goals apply strTokenFree_of_noBrace
        all_goals repeat' first | apply noBrace_append | apply noBrace_cons
        all_goals first | exact hb | exact hi | decide
      · simp only [pagesTokenFree, pageStrings, List.flatMap_cons, List.flatMap_nil,
          collectStrings, collectStringsList, collectStringsFields, logoAssetIdValue,
          if_neg hE,
          List.append_nil, List.nil_append, List.cons_append, List.all_cons, List.all_nil,
          List.all_append, Bool.and_eq_true, Bool.and_true, Bool.true_and]
        repeat' apply And.intro
        all_goals apply strTokenFree_of_noBrace
        all_goals repeat' first | apply noBrace_append | apply noBrace_cons
        all_goals first | exact hb | exact hi | exact hA | decide
  · intro p hp sec hsec
    simp only [List.mem_cons, List.not_mem_nil, or_false] at hp
    subst hp
    simp only [List.mem_cons, List.not_mem_nil, or_false] at hsec
    rcases hsec with rfl | rfl | rfl | rfl
    · right; rfl
    · left; rfl
    · left; rfl
    · left; rfl
theorem defPagesTF (ctx : TokenContext) (logo : Option AssetInfoM)
    (hb : ('{' : Char) ∉ ctx.brandName) (hi : ('{' : Char) ∉ ctx.industryLabel)
    (hbD : ('$' : Char) ∉ ctx.brandName) (hiD : ('$' : Char) ∉ ctx.industryLabel)
    (ha : ∀ l, logo = some l → ('{' : Char) ∉ l.assetId) :
    pagesTokenFree (generatePages DefaultTemplate ctx logo) = true ∧
    ∀ p ∈ generatePages DefaultTemplate ctx logo, ∀ sec ∈ p.sections,
      sectionLogoAssetId sec = none ∨ sectionLogoAssetId sec = some (logoAssetIdValue logo) := by
  rw [defPagesResolved ctx logo hb hi hbD hiD]
  constructor
  · rcases logo with _ | l
    · simp only [pagesTokenFree, pageStrings, List.flatMap_cons, List.flatMap_nil,
        collectStrings, collectStringsList, collectStringsFields, logoAssetIdValue,
        List.append_nil, List.nil_append, List.cons_append, List.all_cons, List.all_nil,
        List.all_append, Bool.and_eq_true, Bool.and_true, Bool.true_and]
      repeat' apply And.intro
      all_goals apply strTokenFree_of_noBrace
      all_goals repeat' first | apply noBrace_append | apply noBrace_cons
      all_goals first | exact hb | exact hi | decide
    · have hA : ('{' : Char) ∉ l.assetId := ha l rfl
      by_cases hE : l.assetId = []
      · simp only [pagesTokenFree, pageStrings, List.flatMap_cons, List.flatMap_nil,
          collectStrings, collectStringsList, collectStringsFields, logoAssetIdValue,
          if_pos hE,
          List.append_nil, List.nil_append, List.cons_append, List.all_cons, List.all_nil,
          List.all_append, Bool.and_eq_true, Bool.and_true, Bool.true_and]
        repeat' apply And.intro
        all_goals apply strTokenFree_of_noBrace
        all_goals repeat' first | apply noBrace_append | apply noBrace_cons
        all_goals first | exact hb | exact hi | decide
      · simp only [pagesTokenFree, pageStrings, List.flatMap_cons, List.flatMap_nil,
          collectStrings, collectStringsList, collectStringsFields, logoAssetIdValue,
          if_neg hE,
          List.append_nil, List.nil_append, List.cons_append, List.all_cons, List.all_nil,
          List.all_append, Bool.and_eq_true, Bool.and_true, Bool.true_and]
        repeat' apply And.intro
        all_goals apply strTokenFree_of_noBrace
        all_goals repeat' first | apply noBrace_append | apply noBrace_cons
        all_goals first | exact hb | exact hi | exact hA | decide
  · intro p hp sec hsec
    simp only [List.mem_cons, List.not_mem_nil, or_false] at hp
    subst hp
    simp only [List.mem_cons, List.not_mem_nil, or_false] at hsec
    rcases hsec with rfl | rfl | rfl | rfl
    · right; rfl
    · left; rfl
    · left; rfl
    · left; rfl
/-- C5 amended: for a stored brand name and industry label that contain
no brace and no dollar character, and a logo asset id with no brace
(the generator never introduces either: normalizeBrandName and
generateSlug only remove characters), token resolution of the selected
template substitutes every brandName, industryLabel, logoUrl and slug
token in every string reachable through the nested props objects and
arrays, the field whose entire value is the logoAssetId token is
replaced by the asset id (or null without a logo), and no literal token
of the closed alphabet remains in the generated pages.  The dollar
restriction is needed because the replacement string of
String.prototype.replace interprets dollar escapes: a brand name such
as dollar-ampersand re-inserts the matched token (see the
counterexample). -/
theorem tokenResolutionComplete (stored : Str) (industry : IndustryInfo) (logo : Option AssetInfoM)
    (hb : ('{' : Char) ∉ stored) (hi : ('{' : Char) ∉ industry.label)
    (hbD : ('$' : Char) ∉ stored) (hiD : ('$' : Char) ∉ industry.label)
    (ha : ∀ l, logo = some l → ('{' : Char) ∉ l.assetId) :
    pagesTokenFree (generatePagesForDraft stored industry logo) = true ∧
    ∀ p ∈ generatePagesForDraft stored industry logo, ∀ sec ∈ p.sections,
      sectionLogoAssetId sec = none ∨ sectionLogoAssetId sec = some (logoAssetIdValue logo) := by
  unfold generatePagesForDraft
  dsimp only
  rcases load_cases (TemplateRegistry.getByIndustry industry.code).templateId with h | h <;> rw [h]
  · exact itPagesTF (generatorContext stored industry logo) logo
      (normalizeBrandName_noBrace stored hb) hi
      (normalizeBrandName_noDollar stored hbD) hiD ha
  · exact defPagesTF (generatorContext stored industry logo) logo
      (normalizeBrandName_noBrace stored hb) hi
      (normalizeBrandName_noDollar stored hbD) hiD ha

/-- C5 witness: the amended theorem evaluated at brand "Acme Co",
industry tech and a concrete logo asset. -/
theorem tokenResolutionComplete_witness :
    pagesTokenFree (generatePagesForDraft ("Acme Co".data) ⟨"tech".data, "Технологии".data⟩
      (some ⟨"ast_1".data, "https://cdn.example/logo.png".data⟩)) = true ∧
    ∀ p ∈ generatePagesForDraft ("Acme Co".data) ⟨"tech".data, "Технологии".data⟩
      (some ⟨"ast_1".data, "https://cdn.example/logo.png".data⟩), ∀ sec ∈ p.sections,
      sectionLogoAssetId sec = none ∨
      sectionLogoAssetId sec = some (logoAssetIdValue (some ⟨"ast_1".data, "https://cdn.example/logo.png".data⟩)) :=
  tokenResolutionComplete ("Acme Co".data) ⟨"tech".data, "Технологии".data⟩
    (some ⟨"ast_1".data, "https://cdn.example/logo.png".data⟩)
    (by decide) (by decide) (by decide) (by decide) (by intro l hl; cases hl; decide)

/-- C5 counterexample: the original claim fails.  First conjunct pair:
the brand name consisting of the literal brandName token is accepted by
BrandName.create (13 chars after trim), survives normalizeBrandName
unchanged, and after resolution the hero headline of the it_services
template still contains the literal token (the four global replaces
substitute the token with itself).  Last conjunct: the two-character
brand name dollar-ampersand is brace-free, yet GetSubstitution expands
it to the matched text, re-inserting the literal brandName token — this
is why the amended claim must also exclude the dollar character. -/
theorem tokenLiteralBrandSurvives :
    BrandName.create ("\x7b\x7bbrandName\x7d\x7d".data) = Except.ok ("\x7b\x7bbrandName\x7d\x7d".data) ∧
    pagesTokenFree (generatePagesForDraft ("\x7b\x7bbrandName\x7d\x7d".data)
      ⟨"tech".data, "Технологии".data⟩ none) = false ∧
    BrandName.create ("$&".data) = Except.ok ("$&".data) ∧
    ('{' : Char) ∉ ("$&".data) ∧
    pagesTokenFree (generatePagesForDraft ("$&".data)
      ⟨"tech".data, "Технологии".data⟩ none) = false := by
  refine ⟨by decide, by decide, by decide, by decide, by decide⟩

end SiteBuilder
